import Mathlib

/-!
# jsonapi: standardized JSON responses over an HTTP response sink

A shallow embedding of `jsonapi.go`.  The package has one worker, `respond`,
which builds a `Response` envelope, sets the `Content-Type` header, commits the
status code and streams the JSON encoding of the envelope to the sink; `Respond`
and fifty-nine named helpers are pass-throughs to it.

What `respond` calls but the package does not define is embedded as follows.

* `http.ResponseWriter` is the in-memory sink the package's own tests hand to
  `Respond`, `httptest.ResponseRecorder`: a status code, a header map, the
  headers as they stood when the status was committed, a body buffer and the
  flag telling whether the status has been committed.  `WriteHeader` panics on
  a code below 100 or above 999, as the recorder and the `net/http` server do.
  The recorder's own `Write` never fails; one more field, `writeErr`, stands for
  the sinks whose `Write` returns an error (a `net/http` connection answers
  `http.ErrBodyNotAllowed` under status 204 or 304, or the transport's error).
* `http.StatusText` is the reason-phrase table of `net/http`.
* `json.NewEncoder(w).Encode(v)` marshals `v` into a buffer, gives up with the
  marshalling error before anything reaches the sink, otherwise writes the
  buffer followed by one newline and returns the error of that write, if any.
* Go's `int` is `Int`; the package does no arithmetic on it.  Where reading a
  body back depends on the 64-bit range of `int`, the statement says so.
* Payloads (`interface{}`) range over `GoValue`: nil, booleans, integers,
  strings, `[]interface{}` slices, and the kinds the encoder rejects: a map
  keyed by booleans, a channel, a function (unsupported types), a `float64`
  that is NaN or infinite (unsupported values) and a value whose `MarshalJSON`
  fails.  A string is a sequence of Unicode scalar values, so it is valid
  UTF-8.  Finite floating point numbers, structs, string-keyed maps and
  strings with invalid UTF-8 are outside the embedding; no statement below
  speaks about them.
* `Decode` is the reading side, `json.NewDecoder(body).Decode(&Response{})`.
  What it stores in the `interface{}` field ranges over `JSONValue`: nil,
  `bool`, `float64`, `string`, `[]interface{}`, `map[string]interface{}`.  A
  number is stored as the `float64` nearest to it; the reader gives up on
  number literals with a fraction or an exponent, which the encoder never
  writes for the payloads above.
-/

namespace Jsonapi

/-! ## Payload values -/

/-- Go values a caller may pass as the `data ...interface{}` argument. -/
inductive GoValue where
  /-- The untyped `nil`. -/
  | nil
  /-- A `bool`. -/
  | bool (b : Bool)
  /-- An `int`. -/
  | int (n : Int)
  /-- A `string`. -/
  | str (s : String)
  /-- A non-nil `[]interface{}`. -/
  | slice (xs : List GoValue)
  /-- A `map[bool]string`: the key type has no JSON representation. -/
  | mapBool (m : List (Bool × String))
  /-- A `chan int`. -/
  | chan
  /-- A `func()`. -/
  | func
  /-- The `float64` NaN. -/
  | nan
  /-- An infinite `float64`, negative when `neg` holds. -/
  | inf (neg : Bool)
  /-- A value of the named type whose `MarshalJSON` returns the error `err`. -/
  | marshaler (typ err : String)

/-- Errors of `json.Marshal`. -/
inductive EncodeError where
  /-- The error `*json.UnsupportedTypeError`, carrying the Go type. -/
  | UnsupportedTypeError (typ : String)
  /-- The error `*json.UnsupportedValueError`, carrying the value as text. -/
  | UnsupportedValueError (str : String)
  /-- The error `*json.MarshalerError`: the type and the error of its method. -/
  | MarshalerError (typ err : String)
  deriving DecidableEq

/-- Errors `Encoder.Encode` returns. -/
inductive Error where
  /-- The value could not be marshalled. -/
  | marshal (e : EncodeError)
  /-- The sink's `Write` returned this error. -/
  | write (msg : String)
  deriving DecidableEq

/-- Values a call panics with. -/
inductive PanicValue where
  /-- The statement `panic(err)` of `respond`. -/
  | error (err : Error)
  /-- A panic raised inside `WriteHeader`, with its message. -/
  | text (msg : String)
  deriving DecidableEq

/-! ## `net/http`: status codes and reason phrases -/

/-- The constant `http.StatusContinue`. -/
def StatusContinue : Int := 100

/-- The constant `http.StatusSwitchingProtocols`. -/
def StatusSwitchingProtocols : Int := 101

/-- The constant `http.StatusProcessing`. -/
def StatusProcessing : Int := 102

/-- The constant `http.StatusOK`. -/
def StatusOK : Int := 200

/-- The constant `http.StatusCreated`. -/
def StatusCreated : Int := 201

/-- The constant `http.StatusAccepted`. -/
def StatusAccepted : Int := 202

/-- The constant `http.StatusNonAuthoritativeInfo`. -/
def StatusNonAuthoritativeInfo : Int := 203

/-- The constant `http.StatusNoContent`. -/
def StatusNoContent : Int := 204

/-- The constant `http.StatusResetContent`. -/
def StatusResetContent : Int := 205

/-- The constant `http.StatusPartialContent`. -/
def StatusPartialContent : Int := 206

/-- The constant `http.StatusMultiStatus`. -/
def StatusMultiStatus : Int := 207

/-- The constant `http.StatusAlreadyReported`. -/
def StatusAlreadyReported : Int := 208

/-- The constant `http.StatusIMUsed`. -/
def StatusIMUsed : Int := 226

/-- The constant `http.StatusMultipleChoices`. -/
def StatusMultipleChoices : Int := 300

/-- The constant `http.StatusMovedPermanently`. -/
def StatusMovedPermanently : Int := 301

/-- The constant `http.StatusFound`. -/
def StatusFound : Int := 302

/-- The constant `http.StatusSeeOther`. -/
def StatusSeeOther : Int := 303

/-- The constant `http.StatusNotModified`. -/
def StatusNotModified : Int := 304

/-- The constant `http.StatusUseProxy`. -/
def StatusUseProxy : Int := 305

/-- The constant `http.StatusTemporaryRedirect`. -/
def StatusTemporaryRedirect : Int := 307

/-- The constant `http.StatusPermanentRedirect`. -/
def StatusPermanentRedirect : Int := 308

/-- The constant `http.StatusBadRequest`. -/
def StatusBadRequest : Int := 400

/-- The constant `http.StatusUnauthorized`. -/
def StatusUnauthorized : Int := 401

/-- The constant `http.StatusPaymentRequired`. -/
def StatusPaymentRequired : Int := 402

/-- The constant `http.StatusForbidden`. -/
def StatusForbidden : Int := 403

/-- The constant `http.StatusNotFound`. -/
def StatusNotFound : Int := 404

/-- The constant `http.StatusMethodNotAllowed`. -/
def StatusMethodNotAllowed : Int := 405

/-- The constant `http.StatusNotAcceptable`. -/
def StatusNotAcceptable : Int := 406

/-- The constant `http.StatusProxyAuthRequired`. -/
def StatusProxyAuthRequired : Int := 407

/-- The constant `http.StatusRequestTimeout`. -/
def StatusRequestTimeout : Int := 408

/-- The constant `http.StatusConflict`. -/
def StatusConflict : Int := 409

/-- The constant `http.StatusGone`. -/
def StatusGone : Int := 410

/-- The constant `http.StatusLengthRequired`. -/
def StatusLengthRequired : Int := 411

/-- The constant `http.StatusPreconditionFailed`. -/
def StatusPreconditionFailed : Int := 412

/-- The constant `http.StatusRequestEntityTooLarge`. -/
def StatusRequestEntityTooLarge : Int := 413

/-- The constant `http.StatusRequestURITooLong`. -/
def StatusRequestURITooLong : Int := 414

/-- The constant `http.StatusUnsupportedMediaType`. -/
def StatusUnsupportedMediaType : Int := 415

/-- The constant `http.StatusRequestedRangeNotSatisfiable`. -/
def StatusRequestedRangeNotSatisfiable : Int := 416

/-- The constant `http.StatusExpectationFailed`. -/
def StatusExpectationFailed : Int := 417

/-- The constant `http.StatusTeapot`. -/
def StatusTeapot : Int := 418

/-- The constant `http.StatusUnprocessableEntity`. -/
def StatusUnprocessableEntity : Int := 422

/-- The constant `http.StatusLocked`. -/
def StatusLocked : Int := 423

/-- The constant `http.StatusFailedDependency`. -/
def StatusFailedDependency : Int := 424

/-- The constant `http.StatusUpgradeRequired`. -/
def StatusUpgradeRequired : Int := 426

/-- The constant `http.StatusPreconditionRequired`. -/
def StatusPreconditionRequired : Int := 428

/-- The constant `http.StatusTooManyRequests`. -/
def StatusTooManyRequests : Int := 429

/-- The constant `http.StatusRequestHeaderFieldsTooLarge`. -/
def StatusRequestHeaderFieldsTooLarge : Int := 431

/-- The constant `http.StatusUnavailableForLegalReasons`. -/
def StatusUnavailableForLegalReasons : Int := 451

/-- The constant `http.StatusInternalServerError`. -/
def StatusInternalServerError : Int := 500

/-- The constant `http.StatusNotImplemented`. -/
def StatusNotImplemented : Int := 501

/-- The constant `http.StatusBadGateway`. -/
def StatusBadGateway : Int := 502

/-- The constant `http.StatusServiceUnavailable`. -/
def StatusServiceUnavailable : Int := 503

/-- The constant `http.StatusGatewayTimeout`. -/
def StatusGatewayTimeout : Int := 504

/-- The constant `http.StatusHTTPVersionNotSupported`. -/
def StatusHTTPVersionNotSupported : Int := 505

/-- The constant `http.StatusVariantAlsoNegotiates`. -/
def StatusVariantAlsoNegotiates : Int := 506

/-- The constant `http.StatusInsufficientStorage`. -/
def StatusInsufficientStorage : Int := 507

/-- The constant `http.StatusLoopDetected`. -/
def StatusLoopDetected : Int := 508

/-- The constant `http.StatusNotExtended`. -/
def StatusNotExtended : Int := 510

/-- The constant `http.StatusNetworkAuthenticationRequired`. -/
def StatusNetworkAuthenticationRequired : Int := 511

/-- The table behind `http.StatusText`: code and reason phrase.  The rows 103,
421 and 425 entered `net/http` in Go 1.13, 1.11 and 1.12. -/
def statusText : List (Int × String) :=
  [(100, "Continue"),
   (101, "Switching Protocols"),
   (102, "Processing"),
   (103, "Early Hints"),
   (200, "OK"),
   (201, "Created"),
   (202, "Accepted"),
   (203, "Non-Authoritative Information"),
   (204, "No Content"),
   (205, "Reset Content"),
   (206, "Partial Content"),
   (207, "Multi-Status"),
   (208, "Already Reported"),
   (226, "IM Used"),
   (300, "Multiple Choices"),
   (301, "Moved Permanently"),
   (302, "Found"),
   (303, "See Other"),
   (304, "Not Modified"),
   (305, "Use Proxy"),
   (307, "Temporary Redirect"),
   (308, "Permanent Redirect"),
   (400, "Bad Request"),
   (401, "Unauthorized"),
   (402, "Payment Required"),
   (403, "Forbidden"),
   (404, "Not Found"),
   (405, "Method Not Allowed"),
   (406, "Not Acceptable"),
   (407, "Proxy Authentication Required"),
   (408, "Request Timeout"),
   (409, "Conflict"),
   (410, "Gone"),
   (411, "Length Required"),
   (412, "Precondition Failed"),
   (413, "Request Entity Too Large"),
   (414, "Request URI Too Long"),
   (415, "Unsupported Media Type"),
   (416, "Requested Range Not Satisfiable"),
   (417, "Expectation Failed"),
   (418, "I\x27m a teapot"),
   (421, "Misdirected Request"),
   (422, "Unprocessable Entity"),
   (423, "Locked"),
   (424, "Failed Dependency"),
   (425, "Too Early"),
   (426, "Upgrade Required"),
   (428, "Precondition Required"),
   (429, "Too Many Requests"),
   (431, "Request Header Fields Too Large"),
   (451, "Unavailable For Legal Reasons"),
   (500, "Internal Server Error"),
   (501, "Not Implemented"),
   (502, "Bad Gateway"),
   (503, "Service Unavailable"),
   (504, "Gateway Timeout"),
   (505, "HTTP Version Not Supported"),
   (506, "Variant Also Negotiates"),
   (507, "Insufficient Storage"),
   (508, "Loop Detected"),
   (510, "Not Extended"),
   (511, "Network Authentication Required")]

/-- The function `http.StatusText`: the reason phrase of `code`, or the empty
string when the code is unknown. -/
def StatusText (code : Int) : String :=
  match statusText.lookup code with
  | some s => s
  | none => ""

/-! ## `net/http/httptest`: the recording sink -/

/-- The type `http.Header`: header name to its list of values. -/
abbrev Header := List (String × List String)

/-- The method `Header.Set`: replace whatever `key` held by the single `value`.
Keys are taken in canonical form, as `Content-Type` is. -/
def Header.Set (h : Header) (key value : String) : Header :=
  (key, [value]) :: h.filter (fun kv => kv.1 != key)

/-- The method `Header.Get`: the first value of `key`, or the empty string. -/
def Header.Get (h : Header) (key : String) : String :=
  match h.lookup key with
  | some (v :: _) => v
  | _ => ""

/-- The struct `httptest.ResponseRecorder`, the `http.ResponseWriter` of the
package's tests, with one field more for sinks whose `Write` fails. -/
structure ResponseRecorder where
  /-- The status code set by `WriteHeader`. -/
  Code : Int
  /-- The response headers. -/
  HeaderMap : Header
  /-- The bytes sent by `Write`. -/
  Body : String
  /-- The headers as they were when the status was committed. -/
  snapHeader : Header
  /-- Whether the status has been committed. -/
  wroteHeader : Bool
  /-- The error `Write` returns; a recorder has none. -/
  writeErr : Option String
  deriving DecidableEq

/-- The constructor `httptest.NewRecorder`. -/
def NewRecorder : ResponseRecorder :=
  { Code := 200, HeaderMap := [], Body := "", snapHeader := [], wroteHeader := false,
    writeErr := none }

/-- The call `w.Header().Set(key, value)`. -/
def ResponseRecorder.HeaderSet (rw : ResponseRecorder) (key value : String) : ResponseRecorder :=
  { rw with HeaderMap := rw.HeaderMap.Set key value }

/-- The function `checkWriteHeaderCode`: the message it panics with when the
code does not have three digits. -/
def checkWriteHeaderCode (code : Int) : Option String :=
  if code < 100 ∨ code > 999 then some ("invalid WriteHeader code " ++ toString code)
  else none

/-- The method `WriteHeader`: ignored once the status is committed; otherwise
it panics on a code without three digits, and else commits the status and
snapshots the headers.  The result is the sink and the panic message, if any. -/
def ResponseRecorder.WriteHeader (rw : ResponseRecorder) (code : Int) :
    ResponseRecorder × Option String :=
  if rw.wroteHeader then (rw, none)
  else
    match checkWriteHeaderCode code with
    | some msg => (rw, some msg)
    | none => ({ rw with Code := code, wroteHeader := true, snapHeader := rw.HeaderMap }, none)

/-- The method `Write`: commit status 200 if no status was committed yet, then
return the sink's write error if it has one, else append to the body.  The
result is the sink and the error returned.  (On that implicit commit the
recorder also sniffs a `Content-Type` when none is set; `respond` always
commits the status itself first.) -/
def ResponseRecorder.Write (rw : ResponseRecorder) (buf : List Char) :
    ResponseRecorder × Option String :=
  let rw := if rw.wroteHeader then rw else (rw.WriteHeader 200).1
  match rw.writeErr with
  | some e => (rw, some e)
  | none => ({ rw with Body := rw.Body ++ String.mk buf }, none)

/-! ## `encoding/json`: the encoder -/

/-- The digit table `hex` of `encoding/json`. -/
def hex : List Char := ['0', '1', '2', '3', '4', '5', '6', '7', '8', '9', 'a', 'b', 'c', 'd', 'e', 'f']

/-- The hexadecimal digit `hex[n]`. -/
def hexChar (n : Nat) : Char := hex.getD n '0'

/-- What the string encoder emits for one character (HTML escaping is on for
an `Encoder`): short escapes for the quote, the backslash and five control
characters, `\u00XX` for the other control characters and for `<`, `>`, `&`,
`\u202X` for the two Unicode line separators, the character itself otherwise. -/
def appendChar (c : Char) : List Char :=
  if c = '"' ∨ c = '\\' then ['\\', c]
  else if c = '\x08' then ['\\', 'b']
  else if c = '\x0c' then ['\\', 'f']
  else if c = '\n' then ['\\', 'n']
  else if c = '\r' then ['\\', 'r']
  else if c = '\t' then ['\\', 't']
  else if c.toNat < 0x20 ∨ c = '<' ∨ c = '>' ∨ c = '&' then
    ['\\', 'u', '0', '0', hexChar (c.toNat / 16), hexChar (c.toNat % 16)]
  else if c.toNat = 0x2028 ∨ c.toNat = 0x2029 then
    ['\\', 'u', '2', '0', '2', hexChar (c.toNat % 16)]
  else [c]

/-- The string encoder: the escaped characters between two quotes. -/
def appendString (s : String) : List Char :=
  '"' :: (s.toList.flatMap appendChar ++ ['"'])

/-- The decimal digit for `d < 10`. -/
def digitChar (d : Nat) : Char := Char.ofNat (48 + d)

/-- Decimal digits of `n`, most significant first, in front of `acc`. -/
def formatUint : Nat → Nat → List Char → List Char
  | 0, _, acc => acc
  | fuel + 1, n, acc =>
    if n < 10 then digitChar n :: acc
    else formatUint fuel (n / 10) (digitChar (n % 10) :: acc)

/-- The function `strconv.FormatInt(n, 10)`. -/
def FormatInt : Int → List Char
  | Int.ofNat m => formatUint (m + 1) m []
  | Int.negSucc m => '-' :: formatUint (m + 2) (m + 1) []

mutual
/-- The value encoder of `encoding/json`. -/
def marshal : GoValue → Except EncodeError (List Char)
  | .nil => .ok ['n', 'u', 'l', 'l']
  | .bool true => .ok ['t', 'r', 'u', 'e']
  | .bool false => .ok ['f', 'a', 'l', 's', 'e']
  | .int n => .ok (FormatInt n)
  | .str s => .ok (appendString s)
  | .slice xs =>
    match marshalElems true xs with
    | .ok b => .ok ('[' :: (b ++ [']']))
    | .error e => .error e
  | .mapBool _ => .error (.UnsupportedTypeError "map[bool]string")
  | .chan => .error (.UnsupportedTypeError "chan int")
  | .func => .error (.UnsupportedTypeError "func()")
  | .nan => .error (.UnsupportedValueError "NaN")
  | .inf false => .error (.UnsupportedValueError "+Inf")
  | .inf true => .error (.UnsupportedValueError "-Inf")
  | .marshaler typ err => .error (.MarshalerError typ err)
/-- The element loop of the array encoder: a comma before every element but
the first. -/
def marshalElems : Bool → List GoValue → Except EncodeError (List Char)
  | _, [] => .ok []
  | first, x :: xs =>
    match marshal x with
    | .error e => .error e
    | .ok a =>
      match marshalElems false xs with
      | .error e => .error e
      | .ok b => .ok ((if first then [] else [',']) ++ (a ++ b))
end

/-- Response is the default JSON structure that will be written. -/
structure Response where
  /-- The field tagged `json:"code"`. -/
  Code : Int
  /-- The field tagged `json:"data"`. -/
  Data : GoValue

/-- The struct encoder applied to a `Response`: the two fields in declaration
order under their JSON names. -/
def Response.marshal (r : Response) : Except EncodeError (List Char) :=
  match Jsonapi.marshal r.Data with
  | .error e => .error e
  | .ok d =>
    .ok (['{', '"', 'c', 'o', 'd', 'e', '"', ':'] ++ FormatInt r.Code
      ++ [',', '"', 'd', 'a', 't', 'a', '"', ':'] ++ d ++ ['}'])

/-- The call `json.NewEncoder(w).Encode(r)`: marshal into a buffer; on error
return it with the sink untouched; otherwise write the buffer and a newline in
one `Write` and return the error of that write, if any. -/
def Encode (w : ResponseRecorder) (r : Response) : ResponseRecorder × Option Error :=
  match r.marshal with
  | .error e => (w, some (Error.marshal e))
  | .ok b =>
    match w.Write (b ++ ['\n']) with
    | (w1, some msg) => (w1, some (Error.write msg))
    | (w1, none) => (w1, none)

/-! ## The package -/

/-- What a call leaves behind: the sink, and the value it panicked with, if
it panicked. -/
abbrev Outcome := ResponseRecorder × Option PanicValue

/-- The function `respond` writes a JSON-encoded body to the sink.  The data
argument is optional: if omitted, the data field is the HTTP status text; if
provided, it is the first argument and the others are ignored. -/
def respond (w : ResponseRecorder) (statusCode : Int) (data : List GoValue) : Outcome :=
  let r : Response :=
    { Code := statusCode
      Data := match data with
        | [] => GoValue.str (StatusText statusCode)
        | d :: _ => d }
  let w := w.HeaderSet "Content-Type" "application/json; charset=UTF-8"
  match w.WriteHeader statusCode with
  | (w, some msg) => (w, some (PanicValue.text msg))
  | (w, none) =>
    match Encode w r with
    | (w, some err) => (w, some (PanicValue.error err))
    | (w, none) => (w, none)

/-- Respond writes data with a custom status. -/
def Respond (w : ResponseRecorder) (status : Int) (data : List GoValue) : Outcome :=
  respond w status data

/-- Continue writes data with status code 100. -/
def Continue (w : ResponseRecorder) (data : List GoValue) : Outcome :=
  respond w StatusContinue data

/-- SwitchingProtocols writes data with status code 101. -/
def SwitchingProtocols (w : ResponseRecorder) (data : List GoValue) : Outcome :=
  respond w StatusSwitchingProtocols data

/-- Processing writes data with status code 102. -/
def Processing (w : ResponseRecorder) (data : List GoValue) : Outcome :=
  respond w StatusProcessing data

/-- OK writes data with status code 200. -/
def OK (w : ResponseRecorder) (data : List GoValue) : Outcome :=
  respond w StatusOK data

/-- Created writes data with status code 201. -/
def Created (w : ResponseRecorder) (data : List GoValue) : Outcome :=
  respond w StatusCreated data

/-- Accepted writes data with status code 202. -/
def Accepted (w : ResponseRecorder) (data : List GoValue) : Outcome :=
  respond w StatusAccepted data

/-- NonAuthoritativeInfo writes data with status code 203. -/
def NonAuthoritativeInfo (w : ResponseRecorder) (data : List GoValue) : Outcome :=
  respond w StatusNonAuthoritativeInfo data

/-- NoContent writes data with status code 204. -/
def NoContent (w : ResponseRecorder) (data : List GoValue) : Outcome :=
  respond w StatusNoContent data

/-- ResetContent writes data with status code 205. -/
def ResetContent (w : ResponseRecorder) (data : List GoValue) : Outcome :=
  respond w StatusResetContent data

/-- PartialContent writes data with status code 206. -/
def PartialContent (w : ResponseRecorder) (data : List GoValue) : Outcome :=
  respond w StatusPartialContent data

/-- MultiStatus writes data with status code 207. -/
def MultiStatus (w : ResponseRecorder) (data : List GoValue) : Outcome :=
  respond w StatusMultiStatus data

/-- AlreadyReported writes data with status code 208. -/
def AlreadyReported (w : ResponseRecorder) (data : List GoValue) : Outcome :=
  respond w StatusAlreadyReported data

/-- IMUsed writes data with status code 226. -/
def IMUsed (w : ResponseRecorder) (data : List GoValue) : Outcome :=
  respond w StatusIMUsed data

/-- MultipleChoices writes data with status code 300. -/
def MultipleChoices (w : ResponseRecorder) (data : List GoValue) : Outcome :=
  respond w StatusMultipleChoices data

/-- MovedPermanently writes data with status code 301. -/
def MovedPermanently (w : ResponseRecorder) (data : List GoValue) : Outcome :=
  respond w StatusMovedPermanently data

/-- Found writes data with status code 302. -/
def Found (w : ResponseRecorder) (data : List GoValue) : Outcome :=
  respond w StatusFound data

/-- SeeOther writes data with status code 303. -/
def SeeOther (w : ResponseRecorder) (data : List GoValue) : Outcome :=
  respond w StatusSeeOther data

/-- NotModified writes data with status code 304. -/
def NotModified (w : ResponseRecorder) (data : List GoValue) : Outcome :=
  respond w StatusNotModified data

/-- UseProxy writes data with status code 305. -/
def UseProxy (w : ResponseRecorder) (data : List GoValue) : Outcome :=
  respond w StatusUseProxy data

/-- TemporaryRedirect writes data with status code 307. -/
def TemporaryRedirect (w : ResponseRecorder) (data : List GoValue) : Outcome :=
  respond w StatusTemporaryRedirect data

/-- PermanentRedirect writes data with status code 308. -/
def PermanentRedirect (w : ResponseRecorder) (data : List GoValue) : Outcome :=
  respond w StatusPermanentRedirect data

/-- BadRequest writes data with status code 400. -/
def BadRequest (w : ResponseRecorder) (data : List GoValue) : Outcome :=
  respond w StatusBadRequest data

/-- Unauthorized writes data with status code 401. -/
def Unauthorized (w : ResponseRecorder) (data : List GoValue) : Outcome :=
  respond w StatusUnauthorized data

/-- PaymentRequired writes data with status code 402. -/
def PaymentRequired (w : ResponseRecorder) (data : List GoValue) : Outcome :=
  respond w StatusPaymentRequired data

/-- Forbidden writes data with status code 403. -/
def Forbidden (w : ResponseRecorder) (data : List GoValue) : Outcome :=
  respond w StatusForbidden data

/-- NotFound writes data with status code 404. -/
def NotFound (w : ResponseRecorder) (data : List GoValue) : Outcome :=
  respond w StatusNotFound data

/-- MethodNotAllowed writes data with status code 405. -/
def MethodNotAllowed (w : ResponseRecorder) (data : List GoValue) : Outcome :=
  respond w StatusMethodNotAllowed data

/-- NotAcceptable writes data with status code 406. -/
def NotAcceptable (w : ResponseRecorder) (data : List GoValue) : Outcome :=
  respond w StatusNotAcceptable data

/-- ProxyAuthRequired writes data with status code 407. -/
def ProxyAuthRequired (w : ResponseRecorder) (data : List GoValue) : Outcome :=
  respond w StatusProxyAuthRequired data

/-- RequestTimeout writes data with status code 408. -/
def RequestTimeout (w : ResponseRecorder) (data : List GoValue) : Outcome :=
  respond w StatusRequestTimeout data

/-- Conflict writes data with status code 409. -/
def Conflict (w : ResponseRecorder) (data : List GoValue) : Outcome :=
  respond w StatusConflict data

/-- Gone writes data with status code 410. -/
def Gone (w : ResponseRecorder) (data : List GoValue) : Outcome :=
  respond w StatusGone data

/-- LengthRequired writes data with status code 411. -/
def LengthRequired (w : ResponseRecorder) (data : List GoValue) : Outcome :=
  respond w StatusLengthRequired data

/-- PreconditionFailed writes data with status code 412. -/
def PreconditionFailed (w : ResponseRecorder) (data : List GoValue) : Outcome :=
  respond w StatusPreconditionFailed data

/-- RequestEntityTooLarge writes data with status code 413. -/
def RequestEntityTooLarge (w : ResponseRecorder) (data : List GoValue) : Outcome :=
  respond w StatusRequestEntityTooLarge data

/-- RequestURITooLong writes data with status code 414. -/
def RequestURITooLong (w : ResponseRecorder) (data : List GoValue) : Outcome :=
  respond w StatusRequestURITooLong data

/-- UnsupportedMediaType writes data with status code 415. -/
def UnsupportedMediaType (w : ResponseRecorder) (data : List GoValue) : Outcome :=
  respond w StatusUnsupportedMediaType data

/-- RequestedRangeNotSatisfiable writes data with status code 416. -/
def RequestedRangeNotSatisfiable (w : ResponseRecorder) (data : List GoValue) : Outcome :=
  respond w StatusRequestedRangeNotSatisfiable data

/-- ExpectationFailed writes data with status code 417. -/
def ExpectationFailed (w : ResponseRecorder) (data : List GoValue) : Outcome :=
  respond w StatusExpectationFailed data

/-- Teapot writes data with status code 418. -/
def Teapot (w : ResponseRecorder) (data : List GoValue) : Outcome :=
  respond w StatusTeapot data

/-- UnprocessableEntity writes data with status code 422. -/
def UnprocessableEntity (w : ResponseRecorder) (data : List GoValue) : Outcome :=
  respond w StatusUnprocessableEntity data

/-- Locked writes data with status code 423. -/
def Locked (w : ResponseRecorder) (data : List GoValue) : Outcome :=
  respond w StatusLocked data

/-- FailedDependency writes data with status code 424. -/
def FailedDependency (w : ResponseRecorder) (data : List GoValue) : Outcome :=
  respond w StatusFailedDependency data

/-- UpgradeRequired writes data with status code 426. -/
def UpgradeRequired (w : ResponseRecorder) (data : List GoValue) : Outcome :=
  respond w StatusUpgradeRequired data

/-- PreconditionRequired writes data with status code 428. -/
def PreconditionRequired (w : ResponseRecorder) (data : List GoValue) : Outcome :=
  respond w StatusPreconditionRequired data

/-- TooManyRequests writes data with status code 429. -/
def TooManyRequests (w : ResponseRecorder) (data : List GoValue) : Outcome :=
  respond w StatusTooManyRequests data

/-- RequestHeaderFieldsTooLarge writes data with status code 431. -/
def RequestHeaderFieldsTooLarge (w : ResponseRecorder) (data : List GoValue) : Outcome :=
  respond w StatusRequestHeaderFieldsTooLarge data

/-- UnavailableForLegalReasons writes data with status code 451. -/
def UnavailableForLegalReasons (w : ResponseRecorder) (data : List GoValue) : Outcome :=
  respond w StatusUnavailableForLegalReasons data

/-- InternalServerError writes data with status code 500. -/
def InternalServerError (w : ResponseRecorder) (data : List GoValue) : Outcome :=
  respond w StatusInternalServerError data

/-- NotImplemented writes data with status code 501. -/
def NotImplemented (w : ResponseRecorder) (data : List GoValue) : Outcome :=
  respond w StatusNotImplemented data

/-- BadGateway writes data with status code 502. -/
def BadGateway (w : ResponseRecorder) (data : List GoValue) : Outcome :=
  respond w StatusBadGateway data

/-- ServiceUnavailable writes data with status code 503. -/
def ServiceUnavailable (w : ResponseRecorder) (data : List GoValue) : Outcome :=
  respond w StatusServiceUnavailable data

/-- GatewayTimeout writes data with status code 504. -/
def GatewayTimeout (w : ResponseRecorder) (data : List GoValue) : Outcome :=
  respond w StatusGatewayTimeout data

/-- HTTPVersionNotSupported writes data with status code 505. -/
def HTTPVersionNotSupported (w : ResponseRecorder) (data : List GoValue) : Outcome :=
  respond w StatusHTTPVersionNotSupported data

/-- VariantAlsoNegotiates writes data with status code 506. -/
def VariantAlsoNegotiates (w : ResponseRecorder) (data : List GoValue) : Outcome :=
  respond w StatusVariantAlsoNegotiates data

/-- InsufficientStorage writes data with status code 507. -/
def InsufficientStorage (w : ResponseRecorder) (data : List GoValue) : Outcome :=
  respond w StatusInsufficientStorage data

/-- LoopDetected writes data with status code 508. -/
def LoopDetected (w : ResponseRecorder) (data : List GoValue) : Outcome :=
  respond w StatusLoopDetected data

/-- NotExtended writes data with status code 510. -/
def NotExtended (w : ResponseRecorder) (data : List GoValue) : Outcome :=
  respond w StatusNotExtended data

/-- NetworkAuthenticationRequired writes data with status code 511. -/
def NetworkAuthenticationRequired (w : ResponseRecorder) (data : List GoValue) : Outcome :=
  respond w StatusNetworkAuthenticationRequired data

/-- One named helper: its Go name, the status code its doc comment gives, and
the function itself. -/
structure Helper where
  /-- The function name. -/
  name : String
  /-- The code in "writes data with status code N". -/
  docCode : Int
  /-- The helper. -/
  run : ResponseRecorder → List GoValue → Outcome

/-- Every named helper of the package, in source order. -/
def helpers : List Helper :=
  [⟨"Continue", 100, Continue⟩,
   ⟨"SwitchingProtocols", 101, SwitchingProtocols⟩,
   ⟨"Processing", 102, Processing⟩,
   ⟨"OK", 200, OK⟩,
   ⟨"Created", 201, Created⟩,
   ⟨"Accepted", 202, Accepted⟩,
   ⟨"NonAuthoritativeInfo", 203, NonAuthoritativeInfo⟩,
   ⟨"NoContent", 204, NoContent⟩,
   ⟨"ResetContent", 205, ResetContent⟩,
   ⟨"PartialContent", 206, PartialContent⟩,
   ⟨"MultiStatus", 207, MultiStatus⟩,
   ⟨"AlreadyReported", 208, AlreadyReported⟩,
   ⟨"IMUsed", 226, IMUsed⟩,
   ⟨"MultipleChoices", 300, MultipleChoices⟩,
   ⟨"MovedPermanently", 301, MovedPermanently⟩,
   ⟨"Found", 302, Found⟩,
   ⟨"SeeOther", 303, SeeOther⟩,
   ⟨"NotModified", 304, NotModified⟩,
   ⟨"UseProxy", 305, UseProxy⟩,
   ⟨"TemporaryRedirect", 307, TemporaryRedirect⟩,
   ⟨"PermanentRedirect", 308, PermanentRedirect⟩,
   ⟨"BadRequest", 400, BadRequest⟩,
   ⟨"Unauthorized", 401, Unauthorized⟩,
   ⟨"PaymentRequired", 402, PaymentRequired⟩,
   ⟨"Forbidden", 403, Forbidden⟩,
   ⟨"NotFound", 404, NotFound⟩,
   ⟨"MethodNotAllowed", 405, MethodNotAllowed⟩,
   ⟨"NotAcceptable", 406, NotAcceptable⟩,
   ⟨"ProxyAuthRequired", 407, ProxyAuthRequired⟩,
   ⟨"RequestTimeout", 408, RequestTimeout⟩,
   ⟨"Conflict", 409, Conflict⟩,
   ⟨"Gone", 410, Gone⟩,
   ⟨"LengthRequired", 411, LengthRequired⟩,
   ⟨"PreconditionFailed", 412, PreconditionFailed⟩,
   ⟨"RequestEntityTooLarge", 413, RequestEntityTooLarge⟩,
   ⟨"RequestURITooLong", 414, RequestURITooLong⟩,
   ⟨"UnsupportedMediaType", 415, UnsupportedMediaType⟩,
   ⟨"RequestedRangeNotSatisfiable", 416, RequestedRangeNotSatisfiable⟩,
   ⟨"ExpectationFailed", 417, ExpectationFailed⟩,
   ⟨"Teapot", 418, Teapot⟩,
   ⟨"UnprocessableEntity", 422, UnprocessableEntity⟩,
   ⟨"Locked", 423, Locked⟩,
   ⟨"FailedDependency", 424, FailedDependency⟩,
   ⟨"UpgradeRequired", 426, UpgradeRequired⟩,
   ⟨"PreconditionRequired", 428, PreconditionRequired⟩,
   ⟨"TooManyRequests", 429, TooManyRequests⟩,
   ⟨"RequestHeaderFieldsTooLarge", 431, RequestHeaderFieldsTooLarge⟩,
   ⟨"UnavailableForLegalReasons", 451, UnavailableForLegalReasons⟩,
   ⟨"InternalServerError", 500, InternalServerError⟩,
   ⟨"NotImplemented", 501, NotImplemented⟩,
   ⟨"BadGateway", 502, BadGateway⟩,
   ⟨"ServiceUnavailable", 503, ServiceUnavailable⟩,
   ⟨"GatewayTimeout", 504, GatewayTimeout⟩,
   ⟨"HTTPVersionNotSupported", 505, HTTPVersionNotSupported⟩,
   ⟨"VariantAlsoNegotiates", 506, VariantAlsoNegotiates⟩,
   ⟨"InsufficientStorage", 507, InsufficientStorage⟩,
   ⟨"LoopDetected", 508, LoopDetected⟩,
   ⟨"NotExtended", 510, NotExtended⟩,
   ⟨"NetworkAuthenticationRequired", 511, NetworkAuthenticationRequired⟩]

/-- The method names of the interface `Responder`, in source order: `Respond`
and one method per status code; each has the signature of the package-level
function of that name. -/
def Responder : List String :=
  ["Respond", "Continue", "SwitchingProtocols", "Processing", "OK", "Created", "Accepted",
   "NonAuthoritativeInfo", "NoContent", "ResetContent", "PartialContent", "MultiStatus",
   "AlreadyReported", "IMUsed", "MultipleChoices", "MovedPermanently", "Found", "SeeOther",
   "NotModified", "UseProxy", "SwitchProxy", "TemporaryRedirect", "PermanentRedirect",
   "BadRequest", "Unauthorized", "PaymentRequired", "Forbidden", "NotFound",
   "MethodNotAllowed", "NotAcceptable", "ProxyAuthenticationRequired", "RequestTimeout",
   "Conflict", "Gone", "LengthRequired", "PreconditionFailed", "PayloadTooLarge", "URITooLong",
   "UnsupportedMediaType", "RangeNotSatisfiable", "ExpectationFailed", "Teapot",
   "MisdirectedRequest", "UnprocessableEntity", "Locked", "FailedDependency",
   "UpgradeRequired", "PreconditionRequired", "TooManyRequests", "RequestHeaderFieldsTooLarge",
   "UnavailableForLegalReasons", "InternalServerError", "NotImplemented", "BadGateway",
   "ServiceUnavailable", "GatewayTimeout", "HTTPVersionNotSupported", "VariantAlsoNegotiates",
   "InsufficientStorage", "LoopDetected", "NotExtended", "NetworkAuthenticationRequired"]

/-! ## `encoding/json`: the reading side

Used only to state what a written body decodes to, as the tests do with
`json.NewDecoder(w.Body).Decode(resp)`. -/

/-- Go values `Decode` stores in an `interface{}`. -/
inductive JSONValue where
  /-- The `nil` read from `null`. -/
  | nil
  /-- A `bool`. -/
  | bool (b : Bool)
  /-- A `float64` whose value is the integer `v`; the negative zero that `-0`
  reads as is not told apart from zero. -/
  | float64 (v : Int)
  /-- A `string`. -/
  | str (s : String)
  /-- A `[]interface{}`. -/
  | slice (xs : List JSONValue)
  /-- A `map[string]interface{}`, given by the members in the order read; a
  later member overrides an earlier one of the same key. -/
  | map (ms : List (String × JSONValue))

/-- The struct `Response` as `Decode` fills it: the `interface{}` field holds
a `JSONValue`. -/
structure Decoded where
  /-- The field tagged `json:"code"`. -/
  Code : Int
  /-- The field tagged `json:"data"`. -/
  Data : JSONValue

/-- JSON insignificant whitespace. -/
def isSpace (c : Char) : Bool :=
  c = ' ' || c = '\t' || c = '\r' || c = '\n'

/-- Drop leading whitespace. -/
def skipSpace : List Char → List Char
  | [] => []
  | c :: r => if isSpace c then skipSpace r else c :: r

/-- Consume the literal `lit` from the front of the input. -/
def expect : List Char → List Char → Option (List Char)
  | [], cs => some cs
  | _ :: _, [] => none
  | l :: ls, c :: cs => if l = c then expect ls cs else none

/-- Value of a hexadecimal digit. -/
def hexVal (c : Char) : Option Nat :=
  if 48 ≤ c.toNat ∧ c.toNat ≤ 57 then some (c.toNat - 48)
  else if 97 ≤ c.toNat ∧ c.toNat ≤ 102 then some (c.toNat - 87)
  else if 65 ≤ c.toNat ∧ c.toNat ≤ 70 then some (c.toNat - 55)
  else none

/-- The function `getu4`: the number written by the four hexadecimal digits of
a `\u` escape. -/
def getu4 (a b c d : Char) : Option Nat :=
  match hexVal a, hexVal b, hexVal c, hexVal d with
  | some x, some y, some z, some t => some (((x * 16 + y) * 16 + z) * 16 + t)
  | _, _, _, _ => none

/-- The character a one-letter escape stands for. -/
def unquoteChar (e : Char) : Option Char :=
  if e = '"' then some '"'
  else if e = '\\' then some '\\'
  else if e = '/' then some '/'
  else if e = 'b' then some '\x08'
  else if e = 'f' then some '\x0c'
  else if e = 'n' then some '\n'
  else if e = 'r' then some '\r'
  else if e = 't' then some '\t'
  else none

/-- The characters read so far, after a high surrogate that found no low
half: it reads as U+FFFD. -/
def flush (pending : Option Nat) (s : List Char) : List Char :=
  match pending with
  | some _ => Char.ofNat 0xFFFD :: s
  | none => s

/-- Read a string literal whose opening quote has been consumed: the
characters up to the closing quote, escapes resolved, and what follows.
`pending` is the high surrogate of a `\u` escape just read, if any: a `\u`
escape of a low surrogate right after it completes the pair and reads as the
character the pair encodes; any other surrogate reads as U+FFFD. -/
def parseStr : Option Nat → List Char → Option (List Char × List Char)
  | _, [] => none
  | pending, c :: r =>
    if c = '"' then some (flush pending [], r)
    else if c = '\\' then
      match r with
      | [] => none
      | e :: r1 =>
        if e = 'u' then
          match r1 with
          | a :: b :: c :: d :: r2 =>
            match getu4 a b c d with
            | none => none
            | some n =>
              if 0xD800 ≤ n ∧ n < 0xDC00 then
                match parseStr (some n) r2 with
                | some (s, r3) => some (flush pending s, r3)
                | none => none
              else if 0xDC00 ≤ n ∧ n < 0xE000 then
                match pending, parseStr none r2 with
                | some h, some (s, r3) =>
                  some (Char.ofNat (0x10000 + (h - 0xD800) * 1024 + (n - 0xDC00)) :: s, r3)
                | none, some (s, r3) => some (Char.ofNat 0xFFFD :: s, r3)
                | _, none => none
              else
                match parseStr none r2 with
                | some (s, r3) => some (flush pending (Char.ofNat n :: s), r3)
                | none => none
          | _ => none
        else
          match unquoteChar e, parseStr none r1 with
          | some ch, some (s, r3) => some (flush pending (ch :: s), r3)
          | _, _ => none
    else if c.toNat < 0x20 then none
    else
      match parseStr none r with
      | some (s, r3) => some (flush pending (c :: s), r3)
      | none => none

/-- Read a string literal whose opening quote has been consumed. -/
def parseString (cs : List Char) : Option (List Char × List Char) :=
  parseStr none cs

/-- Whether `c` is a decimal digit. -/
def isDigit (c : Char) : Bool := 48 ≤ c.toNat && c.toNat ≤ 57

/-- Split off the leading run of digits. -/
def takeDigits : List Char → List Char × List Char
  | [] => ([], [])
  | c :: r => if isDigit c then ((c :: (takeDigits r).1), (takeDigits r).2) else ([], c :: r)

/-- The number a run of digits denotes. -/
def digitsVal (ds : List Char) : Nat :=
  ds.foldl (fun a c => 10 * a + (c.toNat - 48)) 0

/-- Read an unsigned integer literal: digits without a superfluous leading
zero, not continued by a fraction or an exponent. -/
def parseUint (cs : List Char) : Option (Nat × List Char) :=
  match takeDigits cs with
  | ([], _) => none
  | (d :: ds, r) =>
    if d = '0' ∧ ds ≠ [] then none
    else
      match r with
      | c :: _ => if c = '.' ∨ c = 'e' ∨ c = 'E' then none else some (digitsVal (d :: ds), r)
      | [] => some (digitsVal (d :: ds), r)

/-- Read an integer literal. -/
def parseInt : List Char → Option (Int × List Char)
  | [] => none
  | c :: r =>
    if c = '-' then
      match parseUint r with
      | some (n, r1) => some (-(n : Int), r1)
      | none => none
    else
      match parseUint (c :: r) with
      | some (n, r1) => some ((n : Int), r1)
      | none => none

/-- Number of binary digits of `n`, for `n` at most the fuel. -/
def bitLen : Nat → Nat → Nat
  | 0, _ => 0
  | fuel + 1, n => if n = 0 then 0 else 1 + bitLen fuel (n / 2)

/-- The number 2 ^ 1024, above every finite `float64`. -/
def float64Limit : Nat :=
  179769313486231590772930519078902473361797697894230657273430081157732675805500963132708477322407536021120113879871393357658789768814416622492847430639474124377767893424865485276302219601246094119453082952085005768838150682342462881473913110540827237163350510684586298239947245938479716304835356329624224137216

/-- The `float64` nearest to the natural number `n`, ties to the even
mantissa, as `strconv.ParseFloat` rounds; none when it is out of range. -/
def nearestFloat64 (n : Nat) : Option Nat :=
  if n < 2 ^ 53 then some n
  else
    let shift := bitLen n n - 53
    let q := n / 2 ^ shift
    let r := n % 2 ^ shift
    let half := 2 ^ (shift - 1)
    let q1 := if half < r ∨ (r = half ∧ q % 2 = 1) then q + 1 else q
    if q1 * 2 ^ shift < float64Limit then some (q1 * 2 ^ shift) else none

/-- The `float64` an integer literal is stored as in an `interface{}`. -/
def convertNumber (n : Int) : Option JSONValue :=
  match nearestFloat64 n.natAbs with
  | some m => some (JSONValue.float64 (if n < 0 then -(m : Int) else (m : Int)))
  | none => none

mutual
/-- Read one JSON value into the Go value `Decode` stores in an
`interface{}`. -/
def parseValue : Nat → List Char → Option (JSONValue × List Char)
  | 0, _ => none
  | fuel + 1, cs =>
    match skipSpace cs with
    | [] => none
    | c :: r =>
      if c = 'n' then
        match expect ['u', 'l', 'l'] r with
        | some r1 => some (JSONValue.nil, r1)
        | none => none
      else if c = 't' then
        match expect ['r', 'u', 'e'] r with
        | some r1 => some (JSONValue.bool true, r1)
        | none => none
      else if c = 'f' then
        match expect ['a', 'l', 's', 'e'] r with
        | some r1 => some (JSONValue.bool false, r1)
        | none => none
      else if c = '"' then
        match parseString r with
        | some (s, r1) => some (JSONValue.str (String.mk s), r1)
        | none => none
      else if c = '[' then
        match skipSpace r with
        | [] => none
        | c1 :: r1 =>
          if c1 = ']' then some (JSONValue.slice [], r1)
          else
            match parseElems fuel (c1 :: r1) with
            | some (xs, r2) => some (JSONValue.slice xs, r2)
            | none => none
      else if c = '{' then
        match skipSpace r with
        | [] => none
        | c1 :: r1 =>
          if c1 = '}' then some (JSONValue.map [], r1)
          else
            match parseMembers fuel (c1 :: r1) with
            | some (ms, r2) => some (JSONValue.map ms, r2)
            | none => none
      else
        match parseInt (c :: r) with
        | some (n, r1) =>
          match convertNumber n with
          | some v => some (v, r1)
          | none => none
        | none => none
/-- Read the elements of a non-empty array up to the closing bracket. -/
def parseElems : Nat → List Char → Option (List JSONValue × List Char)
  | 0, _ => none
  | fuel + 1, cs =>
    match parseValue fuel cs with
    | none => none
    | some (v, r) =>
      match skipSpace r with
      | [] => none
      | c :: r1 =>
        if c = ',' then
          match parseElems fuel r1 with
          | some (xs, r2) => some (v :: xs, r2)
          | none => none
        else if c = ']' then some ([v], r1)
        else none
/-- Read the members of a non-empty object up to the closing brace. -/
def parseMembers : Nat → List Char → Option (List (String × JSONValue) × List Char)
  | 0, _ => none
  | fuel + 1, cs =>
    match skipSpace cs with
    | [] => none
    | q :: r =>
      if q = '"' then
        match parseString r with
        | none => none
        | some (k, r1) =>
          match skipSpace r1 with
          | [] => none
          | c :: r2 =>
            if c = ':' then
              match parseValue fuel r2 with
              | none => none
              | some (v, r3) =>
                match skipSpace r3 with
                | [] => none
                | c1 :: r4 =>
                  if c1 = ',' then
                    match parseMembers fuel r4 with
                    | some (ms, r5) => some ((String.mk k, v) :: ms, r5)
                    | none => none
                  else if c1 = '}' then some ([(String.mk k, v)], r4)
                  else none
            else none
      else none
end

/-- Whether an object key names the struct field tagged `name` (a lower-case
ASCII name): the match ignores the case of letters. -/
def foldEq (key name : List Char) : Bool :=
  key.map Char.toLower == name

/-- Read the value of the member `code` into the `int` field: `null` leaves
the field as it is, an integer literal within the range of `int` sets it,
anything else is an error. -/
def parseCode (r : Decoded) (cs : List Char) : Option (Decoded × List Char) :=
  match skipSpace cs with
  | [] => none
  | c :: rest =>
    if c = 'n' then
      match expect ['u', 'l', 'l'] rest with
      | some r1 => some (r, r1)
      | none => none
    else
      match parseInt (c :: rest) with
      | some (n, r1) =>
        if -(2 : Int) ^ 63 ≤ n ∧ n < (2 : Int) ^ 63 then some ({ r with Code := n }, r1) else none
      | none => none

/-- Read the members of a non-empty object into the struct, in order: a key
matching `code` or `data` sets that field, the value of any other key is read
and dropped. -/
def parseFields : Nat → Decoded → List Char → Option (Decoded × List Char)
  | 0, _, _ => none
  | fuel + 1, r, cs =>
    match skipSpace cs with
    | [] => none
    | q :: rest =>
      if q = '"' then
        match parseString rest with
        | none => none
        | some (k, r1) =>
          match skipSpace r1 with
          | [] => none
          | c :: r2 =>
            if c = ':' then
              match (if foldEq k ['c', 'o', 'd', 'e'] then parseCode r r2
                     else
                       match parseValue fuel r2 with
                       | some (v, r3) =>
                         if foldEq k ['d', 'a', 't', 'a'] then some ({ r with Data := v }, r3)
                         else some (r, r3)
                       | none => none) with
              | none => none
              | some (r', r3) =>
                match skipSpace r3 with
                | [] => none
                | c1 :: r4 =>
                  if c1 = ',' then parseFields fuel r' r4
                  else if c1 = '}' then some (r', r4)
                  else none
            else none
      else none

/-- The call `json.NewDecoder(body).Decode(&Response{})`: read the first JSON
value of the stream into a zero `Response`; it has to be an object or `null`. -/
def Decode (body : List Char) : Option Decoded :=
  match skipSpace body with
  | [] => none
  | c :: r =>
    if c = '{' then
      match skipSpace r with
      | [] => none
      | c1 :: r1 =>
        if c1 = '}' then some { Code := 0, Data := JSONValue.nil }
        else
          match parseFields body.length { Code := 0, Data := JSONValue.nil } (c1 :: r1) with
          | some (res, _) => some res
          | none => none
    else if c = 'n' then
      match expect ['u', 'l', 'l'] r with
      | some _ => some { Code := 0, Data := JSONValue.nil }
      | none => none
    else none

/-! ## Notions used in the statements -/

mutual
/-- Whether a value is built from kinds that have a JSON representation. -/
def supported : GoValue → Bool
  | .nil => true
  | .bool _ => true
  | .int _ => true
  | .str _ => true
  | .slice xs => supportedAll xs
  | .mapBool _ => false
  | .chan => false
  | .func => false
  | .nan => false
  | .inf _ => false
  | .marshaler _ _ => false
/-- Whether every value of a list is supported. -/
def supportedAll : List GoValue → Bool
  | [] => true
  | x :: xs => supported x && supportedAll xs
end

/-- A payload the encoder accepts. -/
def Serializable (v : GoValue) : Prop := (marshal v).toBool = true

instance (v : GoValue) : Decidable (Serializable v) :=
  inferInstanceAs (Decidable ((marshal v).toBool = true))

mutual
/-- The value `Decode` stores for the encoding of a payload: an `int` comes
back as the nearest `float64`, the other serializable kinds as themselves. -/
def readBack : GoValue → Option JSONValue
  | .nil => some JSONValue.nil
  | .bool b => some (JSONValue.bool b)
  | .int n => convertNumber n
  | .str s => some (JSONValue.str s)
  | .slice xs =>
    match readBackAll xs with
    | some ys => some (JSONValue.slice ys)
    | none => none
  | .mapBool _ => none
  | .chan => none
  | .func => none
  | .nan => none
  | .inf _ => none
  | .marshaler _ _ => none
/-- The values stored for the elements of a slice. -/
def readBackAll : List GoValue → Option (List JSONValue)
  | [] => some []
  | x :: xs =>
    match readBack x, readBackAll xs with
    | some y, some ys => some (y :: ys)
    | _, _ => none
end

mutual
/-- The stored value that is the same Go value as a payload: same dynamic type
and same content, slices element by element.  Only nil, a `bool`, a `string`
and a slice of such have one; an `int` has none, since no `float64` is an
`int`. -/
def sameValue : GoValue → Option JSONValue
  | .nil => some JSONValue.nil
  | .bool b => some (JSONValue.bool b)
  | .int _ => none
  | .str s => some (JSONValue.str s)
  | .slice xs =>
    match sameValues xs with
    | some ys => some (JSONValue.slice ys)
    | none => none
  | .mapBool _ => none
  | .chan => none
  | .func => none
  | .nan => none
  | .inf _ => none
  | .marshaler _ _ => none
/-- The stored values that are the same as the elements of a slice. -/
def sameValues : List GoValue → Option (List JSONValue)
  | [] => some []
  | x :: xs =>
    match sameValue x, sameValues xs with
    | some y, some ys => some (y :: ys)
    | _, _ => none
end

/-- A decoded data field equals the payload `p`. -/
def DataEquals (d : JSONValue) (p : GoValue) : Prop := sameValue p = some d

mutual
/-- A payload made of nil, booleans, strings and slices of such. -/
def isExact : GoValue → Bool
  | .nil => true
  | .bool _ => true
  | .int _ => false
  | .str _ => true
  | .slice xs => allExact xs
  | .mapBool _ => false
  | .chan => false
  | .func => false
  | .nan => false
  | .inf _ => false
  | .marshaler _ _ => false
/-- Whether every value of a list is such a payload. -/
def allExact : List GoValue → Bool
  | [] => true
  | x :: xs => isExact x && allExact xs
end

mutual
/-- Whether every `int` inside a payload lies in the range of Go's `int`. -/
def goInts : GoValue → Bool
  | .nil => true
  | .bool _ => true
  | .int n => decide (-(2 : Int) ^ 63 ≤ n ∧ n < (2 : Int) ^ 63)
  | .str _ => true
  | .slice xs => allGoInts xs
  | .mapBool _ => true
  | .chan => true
  | .func => true
  | .nan => true
  | .inf _ => true
  | .marshaler _ _ => true
/-- Whether that holds of every value of a list. -/
def allGoInts : List GoValue → Bool
  | [] => true
  | x :: xs => goInts x && allGoInts xs
end

/-- The sink takes the status code without a panic: its status is committed
already, so that `WriteHeader` is ignored, or the code has three digits. -/
def Accepts (w : ResponseRecorder) (c : Int) : Prop :=
  w.wroteHeader = true ∨ (100 ≤ c ∧ c ≤ 999)

instance (w : ResponseRecorder) (c : Int) : Decidable (Accepts w c) :=
  inferInstanceAs (Decidable (w.wroteHeader = true ∨ (100 ≤ c ∧ c ≤ 999)))

/-- The header value `respond` sets. -/
def contentType : String := "application/json; charset=UTF-8"

/-- The serialized envelope for status `c` whose data serializes to `d`. -/
def envelope (c : Int) (d : List Char) : List Char :=
  ['{', '"', 'c', 'o', 'd', 'e', '"', ':'] ++ FormatInt c
    ++ [',', '"', 'd', 'a', 't', 'a', '"', ':'] ++ d ++ ['}']

/-- A character the string encoder copies as it is: not a quote, a backslash
or a control character, none of `<`, `>`, `&`, and neither U+2028 nor U+2029. -/
def Plain (ch : Char) : Prop :=
  ch ≠ '"' ∧ ch ≠ '\\' ∧ 0x20 ≤ ch.toNat ∧ ch ≠ '<' ∧ ch ≠ '>' ∧ ch ≠ '&' ∧
    ch.toNat ≠ 0x2028 ∧ ch.toNat ≠ 0x2029

instance (ch : Char) : Decidable (Plain ch) :=
  inferInstanceAs (Decidable (ch ≠ '"' ∧ ch ≠ '\\' ∧ 0x20 ≤ ch.toNat ∧ ch ≠ '<' ∧ ch ≠ '>' ∧
    ch ≠ '&' ∧ ch.toNat ≠ 0x2028 ∧ ch.toNat ≠ 0x2029))

/-- The codes the named helpers are bound to, in source order. -/
def helperCodes : List Int := helpers.map (fun h => h.docCode)

/-- The names of the helpers, in source order. -/
def helperNames : List String := helpers.map (fun h => h.name)

/-- The codes that have a reason phrase. -/
def statusCodes : List Int := statusText.map (fun kv => kv.1)

/-- The input continues with a character that ends a value: a comma, a
closing bracket or brace, or the newline the encoder appends. -/
def Stop (rest : List Char) : Prop :=
  ∃ c r, rest = c :: r ∧ (c = ',' ∨ c = ']' ∨ c = '}' ∨ c = '\n')

mutual
/-- Fuel that `parseValue` needs to read back the encoding of a value. -/
def need : GoValue → Nat
  | .slice xs => 1 + needs xs
  | _ => 1
/-- Fuel that `parseElems` needs for the elements of a slice. -/
def needs : List GoValue → Nat
  | [] => 0
  | x :: xs => 1 + need x + needs xs
end

/-- One call on the sink, of the three kinds `respond` makes. -/
inductive Effect where
  /-- The call `w.Header().Set(key, value)`. -/
  | HeaderSet (key value : String)
  /-- The call `w.WriteHeader(code)`. -/
  | WriteHeader (code : Int)
  /-- The call `w.Write(buf)`. -/
  | Write (buf : List Char)
  deriving DecidableEq

/-- The sink after one call, and the panic message or error of the call, if
any. -/
def Effect.apply (w : ResponseRecorder) : Effect → ResponseRecorder × Option String
  | .HeaderSet key value => (w.HeaderSet key value, none)
  | .WriteHeader code => w.WriteHeader code
  | .Write buf => w.Write buf

/-- The sink after a sequence of calls, made from left to right up to the
first one that panics or returns an error, and that failure, if any. -/
def perform (w : ResponseRecorder) : List Effect → ResponseRecorder × Option String
  | [] => (w, none)
  | e :: es =>
    match e.apply w with
    | (w1, some msg) => (w1, some msg)
    | (w1, none) => perform w1 es

/-- The envelope `respond` builds for a status code and a payload list. -/
def envelopeOf (statusCode : Int) (data : List GoValue) : Response :=
  { Code := statusCode
    Data := match data with
      | [] => GoValue.str (StatusText statusCode)
      | d :: _ => d }

/-! ## Reading back what the encoder wrote -/

theorem expect_append (l r : List Char) : expect l (l ++ r) = some r := by
  induction l with
  | nil => cases r <;> rfl
  | cons a l ih => simp [expect, ih]

theorem getu4_low : ∀ n : Nat, n < 64 →
    getu4 '0' '0' (hexChar (n / 16)) (hexChar (n % 16)) = some n := by
  decide

theorem parseStr_escape (e : Char) (t : List Char) (he : e ≠ 'u') :
    parseStr none ('\\' :: e :: t) =
      match unquoteChar e, parseStr none t with
      | some ch, some (s, r3) => some (ch :: s, r3)
      | _, _ => none := by
  rw [parseStr.eq_def]
  simp only [he, flush, if_false, reduceCtorEq, List.cons.injEq, Char.reduceEq, if_true,
    false_and, and_false]

theorem parseStr_u4 (a b c d : Char) (t : List Char) (n : Nat) (hn : getu4 a b c d = some n)
    (h : n < 0xD800) :
    parseStr none ('\\' :: 'u' :: a :: b :: c :: d :: t) =
      match parseStr none t with
      | some (s, r3) => some (Char.ofNat n :: s, r3)
      | none => none := by
  rw [parseStr.eq_def]
  have h1 : ¬ (0xD800 ≤ n ∧ n < 0xDC00) := by omega
  have h2 : ¬ (0xDC00 ≤ n ∧ n < 0xE000) := by omega
  simp only [hn, h1, h2, flush, if_false, if_true, Char.reduceEq]

theorem parseStr_plain (c : Char) (t : List Char) (h1 : c ≠ '"') (h2 : c ≠ '\\')
    (h3 : ¬ c.toNat < 0x20) :
    parseStr none (c :: t) =
      match parseStr none t with
      | some (s, r3) => some (c :: s, r3)
      | none => none := by
  rw [parseStr.eq_def]
  simp only [h1, h2, h3, flush, if_false]

theorem parseStr_appendChar (c : Char) (t : List Char) :
    parseStr none (appendChar c ++ t) =
      match parseStr none t with
      | some (s, r) => some (c :: s, r)
      | none => none := by
  unfold appendChar
  split
  · rename_i h
    rcases h with rfl | rfl <;>
      (simp only [List.cons_append, List.nil_append]; rw [parseStr_escape _ _ (by decide)]
       rcases parseStr none t with _ | ⟨s, r⟩ <;> rfl)
  split
  · rename_i h; subst h; simp only [List.cons_append, List.nil_append]
    rw [parseStr_escape _ _ (by decide)]; rcases parseStr none t with _ | ⟨s, r⟩ <;> rfl
  split
  · rename_i h; subst h; simp only [List.cons_append, List.nil_append]
    rw [parseStr_escape _ _ (by decide)]; rcases parseStr none t with _ | ⟨s, r⟩ <;> rfl
  split
  · rename_i h; subst h; simp only [List.cons_append, List.nil_append]
    rw [parseStr_escape _ _ (by decide)]; rcases parseStr none t with _ | ⟨s, r⟩ <;> rfl
  split
  · rename_i h; subst h; simp only [List.cons_append, List.nil_append]
    rw [parseStr_escape _ _ (by decide)]; rcases parseStr none t with _ | ⟨s, r⟩ <;> rfl
  split
  · rename_i h; subst h; simp only [List.cons_append, List.nil_append]
    rw [parseStr_escape _ _ (by decide)]; rcases parseStr none t with _ | ⟨s, r⟩ <;> rfl
  split
  · rename_i h
    have hn : c.toNat < 64 := by
      rcases h with h | rfl | rfl | rfl
      · omega
      all_goals decide
    simp only [List.cons_append, List.nil_append]
    rw [parseStr_u4 _ _ _ _ _ _ (getu4_low c.toNat hn) (by omega), Char.ofNat_toNat]
  split
  · rename_i h
    have hc : c = Char.ofNat 0x2028 ∨ c = Char.ofNat 0x2029 := by
      rcases h with h | h
      · left; rw [← h, Char.ofNat_toNat]
      · right; rw [← h, Char.ofNat_toNat]
    rcases hc with rfl | rfl
    · simp only [List.cons_append, List.nil_append]
      rw [parseStr_u4 _ _ _ _ _ 0x2028 (by decide) (by decide)]
    · simp only [List.cons_append, List.nil_append]
      rw [parseStr_u4 _ _ _ _ _ 0x2029 (by decide) (by decide)]
  · rename_i h1 _ _ _ _ _ h7 _
    simp only [List.cons_append, List.nil_append]
    rw [parseStr_plain]
    · intro h; exact h1 (Or.inl h)
    · intro h; exact h1 (Or.inr h)
    · intro h; exact h7 (Or.inl h)

theorem parseString_flatMap (cs rest : List Char) :
    parseString (cs.flatMap appendChar ++ '"' :: rest) = some (cs, rest) := by
  unfold parseString
  induction cs with
  | nil => rw [List.flatMap_nil, List.nil_append, parseStr.eq_def]; simp [flush]
  | cons c cs ih =>
    simp only [List.flatMap_cons, List.append_assoc]
    rw [parseStr_appendChar, ih]

theorem parseString_appendString (s : String) (rest : List Char) :
    ∃ t, appendString s ++ rest = '"' :: t ∧ parseString t = some (s.toList, rest) := by
  refine ⟨s.toList.flatMap appendChar ++ '"' :: rest, ?_, parseString_flatMap _ _⟩
  simp [appendString]

theorem digitChar_toNat : ∀ n : Nat, n < 10 → (digitChar n).toNat = 48 + n := by
  decide

theorem formatUint_acc (fuel : Nat) : ∀ (n : Nat) (acc : List Char),
    formatUint fuel n acc = formatUint fuel n [] ++ acc := by
  induction fuel with
  | zero => intro n acc; simp [formatUint]
  | succ fuel ih =>
    intro n acc
    simp only [formatUint]
    split
    · simp
    · rw [ih (n / 10) (digitChar (n % 10) :: acc), ih (n / 10) [digitChar (n % 10)]]
      simp

theorem formatUint_step (fuel n : Nat) (h : ¬ n < 10) :
    formatUint (fuel + 1) n [] = formatUint fuel (n / 10) [] ++ [digitChar (n % 10)] := by
  simp only [formatUint, if_neg h]
  exact formatUint_acc fuel _ _

theorem digitsVal_snoc (ds : List Char) (c : Char) :
    digitsVal (ds ++ [c]) = 10 * digitsVal ds + (c.toNat - 48) := by
  simp [digitsVal, List.foldl_append]

theorem digitsVal_formatUint (fuel : Nat) : ∀ n : Nat, n < fuel →
    digitsVal (formatUint fuel n []) = n := by
  induction fuel with
  | zero => intro n h; omega
  | succ fuel ih =>
    intro n h
    by_cases h10 : n < 10
    · simp [formatUint, h10, digitsVal, digitChar_toNat n h10]
    · rw [formatUint_step fuel n h10, digitsVal_snoc, ih (n / 10) (by omega),
        digitChar_toNat _ (Nat.mod_lt _ (by decide))]
      omega

theorem isDigit_digitChar : ∀ n : Nat, n < 10 → isDigit (digitChar n) = true := by
  decide

theorem isDigit_formatUint (fuel : Nat) : ∀ n : Nat, ∀ c ∈ formatUint fuel n [], isDigit c = true := by
  induction fuel with
  | zero => intro n c hc; simp [formatUint] at hc
  | succ fuel ih =>
    intro n c hc
    by_cases h10 : n < 10
    · simp [formatUint, h10] at hc
      subst hc
      exact isDigit_digitChar n h10
    · rw [formatUint_step fuel n h10] at hc
      rcases List.mem_append.1 hc with h | h
      · exact ih _ c h
      · simp at h
        subst h
        exact isDigit_digitChar _ (Nat.mod_lt _ (by decide))

theorem digitChar_zero : ∀ n : Nat, n < 10 → digitChar n = '0' → n = 0 := by
  decide

theorem formatUint_head (fuel : Nat) : ∀ n : Nat, n < fuel →
    ∃ d ds, formatUint fuel n [] = d :: ds ∧ (d = '0' → n = 0 ∧ ds = []) := by
  induction fuel with
  | zero => intro n h; omega
  | succ fuel ih =>
    intro n h
    by_cases h10 : n < 10
    · refine ⟨digitChar n, [], by simp [formatUint, h10], fun h0 => ⟨digitChar_zero n h10 h0, rfl⟩⟩
    · obtain ⟨d, ds, hd, h0⟩ := ih (n / 10) (by omega)
      refine ⟨d, ds ++ [digitChar (n % 10)], by rw [formatUint_step fuel n h10, hd]; rfl, ?_⟩
      intro hz
      have := (h0 hz).1
      omega

theorem takeDigits_append (ds rest : List Char) (hds : ∀ c ∈ ds, isDigit c = true)
    (hrest : Stop rest) : takeDigits (ds ++ rest) = (ds, rest) := by
  induction ds with
  | nil =>
    obtain ⟨c, r, rfl, hc⟩ := hrest
    have : isDigit c = false := by rcases hc with rfl | rfl | rfl | rfl <;> decide
    simp [takeDigits, this]
  | cons d ds ih =>
    have hd : isDigit d = true := hds d (List.mem_cons_self _ _)
    have := ih (fun c hc => hds c (List.mem_cons_of_mem _ hc))
    simp [takeDigits, hd, this]

theorem parseUint_formatUint (fuel n : Nat) (h : n < fuel) (rest : List Char) (hrest : Stop rest) :
    parseUint (formatUint fuel n [] ++ rest) = some (n, rest) := by
  obtain ⟨d, ds, hd, h0⟩ := formatUint_head fuel n h
  have hval := digitsVal_formatUint fuel n h
  have htake := takeDigits_append _ rest (isDigit_formatUint fuel n) hrest
  rw [hd] at htake hval
  unfold parseUint
  rw [hd, htake]
  have hz : ¬ (d = '0' ∧ ds ≠ []) := fun hh => hh.2 (h0 hh.1).2
  obtain ⟨c, r, rfl, hc⟩ := hrest
  have hc' : ¬ (c = '.' ∨ c = 'e' ∨ c = 'E') := by
    rcases hc with rfl | rfl | rfl | rfl <;> decide
  simp [hz, hc', hval]

theorem parseInt_FormatInt (z : Int) (rest : List Char) (hrest : Stop rest) :
    parseInt (FormatInt z ++ rest) = some (z, rest) := by
  cases z with
  | ofNat m =>
    obtain ⟨d, ds, hd, -⟩ := formatUint_head (m + 1) m (by omega)
    have hdig : isDigit d = true :=
      isDigit_formatUint (m + 1) m d (by rw [hd]; exact List.mem_cons_self _ _)
    have hne : d ≠ '-' := by rintro rfl; exact absurd hdig (by decide)
    have hp := parseUint_formatUint (m + 1) m (by omega) rest hrest
    simp only [FormatInt]
    rw [hd] at hp ⊢
    simp only [List.cons_append] at hp ⊢
    simp [parseInt, hne, hp]
  | negSucc m =>
    have hp := parseUint_formatUint (m + 2) (m + 1) (by omega) rest hrest
    simp only [FormatInt, List.cons_append]
    simp [parseInt, hp, Int.negSucc_eq]

theorem FormatInt_head (z : Int) : ∃ d ds, FormatInt z = d :: ds ∧ isSpace d = false ∧
    d ≠ 'n' ∧ d ≠ 't' ∧ d ≠ 'f' ∧ d ≠ '"' ∧ d ≠ '[' ∧ d ≠ ']' ∧ d ≠ '{' := by
  cases z with
  | ofNat m =>
    obtain ⟨d, ds, hd, -⟩ := formatUint_head (m + 1) m (by omega)
    have hdig : isDigit d = true :=
      isDigit_formatUint (m + 1) m d (by rw [hd]; exact List.mem_cons_self _ _)
    refine ⟨d, ds, by simp [FormatInt, hd], ?_⟩
    have h1 : 48 ≤ d.toNat ∧ d.toNat ≤ 57 := by simpa [isDigit] using hdig
    refine ⟨?_, ?_, ?_, ?_, ?_, ?_, ?_, ?_⟩
    · simp only [isSpace]
      have : d ≠ ' ' ∧ d ≠ '\t' ∧ d ≠ '\r' ∧ d ≠ '\n' := by
        refine ⟨?_, ?_, ?_, ?_⟩ <;> (rintro rfl; revert h1; decide)
      simp [this]
    all_goals (rintro rfl; revert h1; decide)
  | negSucc m =>
    exact ⟨'-', _, rfl, by decide, by decide, by decide, by decide, by decide, by decide, by decide,
      by decide⟩


theorem marshalElems_cons (first : Bool) (x : GoValue) (xs : List GoValue) (b : List Char)
    (h : marshalElems first (x :: xs) = .ok b) :
    ∃ a b1, marshal x = .ok a ∧ marshalElems false xs = .ok b1 ∧
      b = (if first then [] else [',']) ++ (a ++ b1) := by
  rw [marshalElems] at h
  cases ha : marshal x with
  | error e => simp [ha] at h
  | ok a =>
    cases hb : marshalElems false xs with
    | error e => simp [ha, hb] at h
    | ok b1 =>
      simp [ha, hb] at h
      exact ⟨a, b1, rfl, rfl, h.symm⟩

theorem skipSpace_cons (d : Char) (r : List Char) (h : isSpace d = false) :
    skipSpace (d :: r) = d :: r := by
  simp [skipSpace, h]

theorem marshal_head (v : GoValue) (a : List Char) (h : marshal v = .ok a) :
    ∃ d ds, a = d :: ds ∧ isSpace d = false ∧ d ≠ ']' := by
  cases v with
  | nil => simp [marshal] at h; subst h; exact ⟨_, _, rfl, by decide, by decide⟩
  | bool t => cases t <;> (simp [marshal] at h; subst h; exact ⟨_, _, rfl, by decide, by decide⟩)
  | int n =>
    simp [marshal] at h; subst h
    obtain ⟨d, ds, hd, hs, -, -, -, -, -, h6, -⟩ := FormatInt_head n
    exact ⟨d, ds, hd, hs, h6⟩
  | str s => simp [marshal, appendString] at h; subst h; exact ⟨_, _, rfl, by decide, by decide⟩
  | slice xs =>
    rw [marshal] at h
    cases he : marshalElems true xs with
    | error e => simp [he] at h
    | ok b1 => simp [he] at h; subst h; exact ⟨_, _, rfl, by decide, by decide⟩
  | mapBool m => simp [marshal] at h
  | chan => simp [marshal] at h
  | func => simp [marshal] at h
  | nan => simp [marshal] at h
  | inf neg => cases neg <;> simp [marshal] at h
  | marshaler typ err => simp [marshal] at h

theorem readBack_slice (xs : List GoValue) (d : JSONValue) (h : readBack (GoValue.slice xs) = some d) :
    ∃ ys, readBackAll xs = some ys ∧ d = JSONValue.slice ys := by
  rw [readBack] at h
  cases hx : readBackAll xs with
  | none => simp [hx] at h
  | some ys => simp [hx] at h; exact ⟨ys, rfl, h.symm⟩

theorem readBackAll_cons (x : GoValue) (xs : List GoValue) (ds : List JSONValue)
    (h : readBackAll (x :: xs) = some ds) :
    ∃ y ys, readBack x = some y ∧ readBackAll xs = some ys ∧ ds = y :: ys := by
  rw [readBackAll] at h
  cases hx : readBack x with
  | none => simp [hx] at h
  | some y =>
    cases hxs : readBackAll xs with
    | none => simp [hx, hxs] at h
    | some ys => simp [hx, hxs] at h; exact ⟨y, ys, rfl, rfl, h.symm⟩

mutual
theorem parseValue_marshal (v : GoValue) (b rest : List Char) (fuel : Nat) (d : JSONValue)
    (hm : marshal v = .ok b) (hd : readBack v = some d) (hrest : Stop rest)
    (hf : need v ≤ fuel) :
    parseValue fuel (b ++ rest) = some (d, rest) := by
  obtain ⟨fuel, rfl⟩ : ∃ f, fuel = f + 1 := ⟨fuel - 1, by cases v <;> simp [need] at hf <;> omega⟩
  cases v with
  | nil =>
    simp [marshal] at hm; subst hm
    simp [readBack] at hd; subst hd
    simp [parseValue, skipSpace, isSpace, expect]
  | bool t =>
    simp [readBack] at hd; subst hd
    cases t <;> (simp [marshal] at hm; subst hm; simp [parseValue, skipSpace, isSpace, expect])
  | int n =>
    simp [marshal] at hm; subst hm
    simp only [readBack] at hd
    obtain ⟨c, cs, hc, hs, h1, h2, h3, h4, h5, -, h7⟩ := FormatInt_head n
    have hp := parseInt_FormatInt n rest hrest
    rw [hc] at hp ⊢
    simp only [List.cons_append] at hp ⊢
    simp [parseValue, skipSpace, hs, h1, h2, h3, h4, h5, h7, hp, hd]
  | str s =>
    simp [marshal] at hm; subst hm
    simp [readBack] at hd; subst hd
    obtain ⟨t, ht, hp⟩ := parseString_appendString s rest
    rw [ht]
    simp [parseValue, skipSpace, isSpace, hp]
  | slice xs =>
    obtain ⟨ys, hys, rfl⟩ := readBack_slice xs d hd
    rw [marshal] at hm
    cases xs with
    | nil =>
      simp [marshalElems] at hm; subst hm
      simp [readBackAll] at hys; subst hys
      simp [parseValue, skipSpace, isSpace]
    | cons x xs =>
      cases he : marshalElems true (x :: xs) with
      | error e => simp [he] at hm
      | ok b1 =>
        simp [he] at hm; subst hm
        obtain ⟨a, b2, ha, hb, hb1⟩ := marshalElems_cons true x xs b1 he
        simp at hb1; subst hb1
        obtain ⟨y, ys1, hy, hys1, rfl⟩ := readBackAll_cons x xs ys hys
        have hn : needs (x :: xs) ≤ fuel := by simp [need] at hf; omega
        have hp := parseElems_marshal x xs a b2 rest fuel y ys1 ha hb hy hys1 hn
        obtain ⟨c, cs, rfl, hs, hc⟩ := marshal_head x a ha
        simp only [List.cons_append, List.append_assoc] at hp ⊢
        simp [parseValue, skipSpace_cons _ _ (show isSpace '[' = false by decide),
          skipSpace_cons _ _ hs, hc, hp]
  | mapBool m => simp [marshal] at hm
  | chan => simp [marshal] at hm
  | func => simp [marshal] at hm
  | nan => simp [marshal] at hm
  | inf neg => cases neg <;> simp [marshal] at hm
  | marshaler typ err => simp [marshal] at hm
termination_by sizeOf v
theorem parseElems_marshal (x : GoValue) (xs : List GoValue) (a b rest : List Char) (fuel : Nat)
    (y : JSONValue) (ys : List JSONValue)
    (ha : marshal x = .ok a) (hb : marshalElems false xs = .ok b)
    (hy : readBack x = some y) (hys : readBackAll xs = some ys)
    (hf : needs (x :: xs) ≤ fuel) :
    parseElems fuel (a ++ (b ++ ']' :: rest)) = some (y :: ys, rest) := by
  obtain ⟨fuel, rfl⟩ : ∃ f, fuel = f + 1 := ⟨fuel - 1, by simp [needs] at hf; omega⟩
  cases xs with
  | nil =>
    simp [marshalElems] at hb; subst hb
    simp [readBackAll] at hys; subst hys
    have hp := parseValue_marshal x a (']' :: rest) fuel y ha hy ⟨_, _, rfl, by simp⟩
      (by simp [needs] at hf; omega)
    simp only [List.nil_append]
    simp [parseElems, hp, skipSpace, isSpace]
  | cons z zs =>
    obtain ⟨a1, b1, ha1, hb1, rfl⟩ := marshalElems_cons false z zs b hb
    obtain ⟨y1, ys1, hy1, hys1, rfl⟩ := readBackAll_cons z zs ys hys
    have hp := parseValue_marshal x a (',' :: (a1 ++ (b1 ++ ']' :: rest))) fuel y ha hy
      ⟨_, _, rfl, by simp⟩ (by simp [needs] at hf; omega)
    have hq := parseElems_marshal z zs a1 b1 rest fuel y1 ys1 ha1 hb1 hy1 hys1
      (by simp [needs] at hf ⊢; omega)
    simp only [Bool.false_eq_true, if_false, List.cons_append, List.nil_append, List.append_assoc]
    simp [parseElems, hp, skipSpace, isSpace, hq]
termination_by 1 + sizeOf x + sizeOf xs
end

mutual
theorem need_le_length (v : GoValue) (b : List Char) (h : marshal v = .ok b) :
    need v ≤ b.length := by
  cases v with
  | nil => simp [marshal] at h; subst h; simp [need]
  | bool t => cases t <;> (simp [marshal] at h; subst h; simp [need])
  | int n =>
    obtain ⟨d, ds, rfl, -⟩ := marshal_head _ b h
    simp [need]
  | str s =>
    obtain ⟨d, ds, rfl, -⟩ := marshal_head _ b h
    simp [need]
  | slice xs =>
    rw [marshal] at h
    cases he : marshalElems true xs with
    | error e => simp [he] at h
    | ok b1 =>
      simp [he] at h; subst h
      have := needs_le_length true xs b1 he
      simp [need] at this ⊢
      omega
  | mapBool m => simp [marshal] at h
  | chan => simp [marshal] at h
  | func => simp [marshal] at h
  | nan => simp [marshal] at h
  | inf neg => cases neg <;> simp [marshal] at h
  | marshaler typ err => simp [marshal] at h
termination_by sizeOf v
theorem needs_le_length (first : Bool) (xs : List GoValue) (b : List Char)
    (h : marshalElems first xs = .ok b) :
    needs xs ≤ b.length + (if first then 1 else 0) := by
  cases xs with
  | nil => simp [needs]
  | cons x xs =>
    obtain ⟨a, b1, ha, hb, rfl⟩ := marshalElems_cons first x xs b h
    have h1 := need_le_length x a ha
    have h2 := needs_le_length false xs b1 hb
    cases first <;> simp [needs] at h2 ⊢ <;> omega
termination_by sizeOf xs
end

theorem parseCode_FormatInt (r : Decoded) (c : Int) (rest : List Char) (hrest : Stop rest)
    (hc : -(2 : Int) ^ 63 ≤ c ∧ c < (2 : Int) ^ 63) :
    parseCode r (FormatInt c ++ rest) = some ({ r with Code := c }, rest) := by
  obtain ⟨d, ds, hd, hs, h1, -⟩ := FormatInt_head c
  have hp := parseInt_FormatInt c rest hrest
  rw [hd] at hp ⊢
  simp only [List.cons_append] at hp ⊢
  simp only [parseCode, skipSpace_cons _ _ hs, h1, if_false, hp]
  norm_num at hc
  simp [hc]

theorem parseFields_code (r : Decoded) (c : Int) (more : List Char) (fuel : Nat)
    (hc : -(2 : Int) ^ 63 ≤ c ∧ c < (2 : Int) ^ 63) :
    parseFields (fuel + 1) r
        ('"' :: 'c' :: 'o' :: 'd' :: 'e' :: '"' :: ':' :: (FormatInt c ++ ',' :: more)) =
      parseFields fuel { r with Code := c } more := by
  have hk : parseString ('c' :: 'o' :: 'd' :: 'e' :: '"' :: ':' :: (FormatInt c ++ ',' :: more))
      = some (['c', 'o', 'd', 'e'], ':' :: (FormatInt c ++ ',' :: more)) :=
    parseString_flatMap ['c', 'o', 'd', 'e'] _
  have hv := parseCode_FormatInt r c (',' :: more) ⟨_, _, rfl, by simp⟩ hc
  have hfold : foldEq ['c', 'o', 'd', 'e'] ['c', 'o', 'd', 'e'] = true := by decide
  simp only [parseFields, skipSpace_cons _ _ (show isSpace '"' = false by decide), hk,
    skipSpace_cons _ _ (show isSpace ':' = false by decide), hfold, hv,
    skipSpace_cons _ _ (show isSpace ',' = false by decide)]
  simp [skipSpace, isSpace]

theorem parseFields_data (r : Decoded) (p : GoValue) (d rest : List Char) (v : JSONValue)
    (fuel : Nat) (hd : marshal p = .ok d) (hv : readBack p = some v) (hf : need p ≤ fuel) :
    parseFields (fuel + 1) r
        ('"' :: 'd' :: 'a' :: 't' :: 'a' :: '"' :: ':' :: (d ++ '}' :: rest)) =
      some ({ r with Data := v }, rest) := by
  have hk : parseString ('d' :: 'a' :: 't' :: 'a' :: '"' :: ':' :: (d ++ '}' :: rest))
      = some (['d', 'a', 't', 'a'], ':' :: (d ++ '}' :: rest)) :=
    parseString_flatMap ['d', 'a', 't', 'a'] _
  have hp := parseValue_marshal p d ('}' :: rest) fuel v hd hv ⟨_, _, rfl, by simp⟩ hf
  have hfold1 : foldEq ['d', 'a', 't', 'a'] ['c', 'o', 'd', 'e'] = false := by decide
  have hfold2 : foldEq ['d', 'a', 't', 'a'] ['d', 'a', 't', 'a'] = true := by decide
  simp only [parseFields, skipSpace_cons _ _ (show isSpace '"' = false by decide), hk,
    skipSpace_cons _ _ (show isSpace ':' = false by decide), hfold1, hfold2, hp,
    skipSpace_cons _ _ (show isSpace '}' = false by decide)]
  simp [skipSpace, isSpace]

theorem Decode_envelope (c : Int) (p : GoValue) (d tail : List Char) (v : JSONValue)
    (hd : marshal p = .ok d) (hv : readBack p = some v)
    (hc : -(2 : Int) ^ 63 ≤ c ∧ c < (2 : Int) ^ 63) :
    Decode (envelope c d ++ '\n' :: tail) = some { Code := c, Data := v } := by
  have hlen := need_le_length p d hd
  unfold Decode envelope
  simp only [List.cons_append, List.nil_append, List.append_assoc,
    skipSpace_cons _ _ (show isSpace '{' = false by decide),
    skipSpace_cons _ _ (show isSpace '"' = false by decide)]
  generalize hL : ('{' :: '"' :: 'c' :: 'o' :: 'd' :: 'e' :: '"' :: ':' :: (FormatInt c ++
    ',' :: '"' :: 'd' :: 'a' :: 't' :: 'a' :: '"' :: ':' :: (d ++ '}' :: '\n' :: tail))).length = L
  obtain ⟨f, rfl⟩ : ∃ f, L = f + 1 + 1 := ⟨L - 2, by simp at hL; omega⟩
  have hf : need p ≤ f := by simp at hL; omega
  rw [parseFields_code _ c _ (f + 1) hc, parseFields_data _ p d _ v f hd hv hf]
  simp

/-! ## Which payloads the encoder accepts, and what they read back as -/

mutual
theorem marshal_ok_iff (v : GoValue) : (∃ b, marshal v = .ok b) ↔ supported v = true := by
  cases v with
  | nil => simp [marshal, supported]
  | bool t => cases t <;> simp [marshal, supported]
  | int n => simp [marshal, supported]
  | str s => simp [marshal, supported]
  | slice xs =>
    have ih := marshalElems_ok_iff true xs
    rw [marshal, supported, ← ih]
    cases he : marshalElems true xs with
    | error e => simp
    | ok b => simp
  | mapBool m => simp [marshal, supported]
  | chan => simp [marshal, supported]
  | func => simp [marshal, supported]
  | nan => simp [marshal, supported]
  | inf neg => cases neg <;> simp [marshal, supported]
  | marshaler typ err => simp [marshal, supported]
termination_by sizeOf v
theorem marshalElems_ok_iff (first : Bool) (xs : List GoValue) :
    (∃ b, marshalElems first xs = .ok b) ↔ supportedAll xs = true := by
  cases xs with
  | nil => simp [marshalElems, supportedAll]
  | cons x xs =>
    have ih1 := marshal_ok_iff x
    have ih2 := marshalElems_ok_iff false xs
    rw [marshalElems, supportedAll, Bool.and_eq_true, ← ih1, ← ih2]
    cases hx : marshal x with
    | error e => simp
    | ok a =>
      cases hxs : marshalElems false xs with
      | error e => simp
      | ok b => simp
termination_by sizeOf xs
end

theorem serializable_iff (v : GoValue) : Serializable v ↔ ∃ b, marshal v = .ok b := by
  unfold Serializable
  cases marshal v with
  | error e => simp [Except.toBool]
  | ok b => simp [Except.toBool]

theorem serializable_iff_supported (v : GoValue) : Serializable v ↔ supported v = true :=
  (serializable_iff v).trans (marshal_ok_iff v)

theorem not_serializable_error (p : GoValue) (h : ¬ Serializable p) :
    ∃ e, marshal p = .error e := by
  cases hm : marshal p with
  | error e => exact ⟨e, rfl⟩
  | ok b => exact absurd ((serializable_iff p).2 ⟨b, hm⟩) h

theorem bitLen_pow_le (fuel : Nat) : ∀ n : Nat, n ≤ fuel → 1 ≤ n → 2 ^ bitLen fuel n ≤ 2 * n := by
  induction fuel with
  | zero => intro n h1 h2; omega
  | succ fuel ih =>
    intro n h1 h2
    have hn : n ≠ 0 := by omega
    simp only [bitLen, hn, if_false]
    by_cases h : n / 2 = 0
    · have h0 : bitLen fuel (n / 2) = 0 := by
        rw [h]
        cases fuel <;> simp [bitLen]
      rw [h0]
      omega
    · have := ih (n / 2) (by omega) (by omega)
      rw [Nat.pow_add]
      omega

theorem nearestFloat64_small (n : Nat) (h : n < 2 ^ 53) : nearestFloat64 n = some n := by
  unfold nearestFloat64
  rw [if_pos h]

theorem nearestFloat64_isSome (n : Nat) (h : n ≤ 2 ^ 63) : ∃ m, nearestFloat64 n = some m := by
  by_cases h53 : n < 2 ^ 53
  · exact ⟨n, nearestFloat64_small n h53⟩
  · unfold nearestFloat64
    rw [if_neg h53]
    dsimp only
    have hn : 1 ≤ n := by
      have h0 : 0 < (2 : Nat) ^ 53 := by positivity
      omega
    have hb := bitLen_pow_le n n (le_refl n) hn
    have hs : 2 ^ (bitLen n n - 53) ≤ 2 ^ bitLen n n :=
      Nat.pow_le_pow_right (by decide) (Nat.sub_le _ _)
    have hq : n / 2 ^ (bitLen n n - 53) * 2 ^ (bitLen n n - 53) ≤ n := Nat.div_mul_le_self _ _
    have hlim : 3 * 2 ^ 63 < float64Limit := by
      unfold float64Limit
      norm_num
    have key : (n / 2 ^ (bitLen n n - 53) + 1) * 2 ^ (bitLen n n - 53) < float64Limit := by
      rw [Nat.add_mul, Nat.one_mul]
      omega
    have key2 : n / 2 ^ (bitLen n n - 53) * 2 ^ (bitLen n n - 53) < float64Limit := by omega
    split_ifs <;> exact ⟨_, rfl⟩

theorem convertNumber_isSome (n : Int) (h : -(2 : Int) ^ 63 ≤ n ∧ n < (2 : Int) ^ 63) :
    ∃ v, convertNumber n = some v := by
  have hn : n.natAbs ≤ 2 ^ 63 := by
    obtain ⟨h1, h2⟩ := h
    have e : (2 : Int) ^ 63 = 9223372036854775808 := by norm_num
    have e2 : (2 : Nat) ^ 63 = 9223372036854775808 := by norm_num
    rw [e] at h1 h2
    rw [e2]
    omega
  obtain ⟨m, hm⟩ := nearestFloat64_isSome n.natAbs hn
  unfold convertNumber
  rw [hm]
  exact ⟨_, rfl⟩

theorem convertNumber_exact (n : Int) (h : n.natAbs < 2 ^ 53) :
    convertNumber n = some (JSONValue.float64 n) := by
  unfold convertNumber
  rw [nearestFloat64_small n.natAbs h]
  dsimp only
  congr 2
  split <;> omega

mutual
theorem readBack_isSome (v : GoValue) (hs : supported v = true) (hi : goInts v = true) :
    ∃ d, readBack v = some d := by
  cases v with
  | nil => exact ⟨_, by rw [readBack]⟩
  | bool t => exact ⟨_, by rw [readBack]⟩
  | int n =>
    rw [readBack]
    exact convertNumber_isSome n (by simpa [goInts] using hi)
  | str s => exact ⟨_, by rw [readBack]⟩
  | slice xs =>
    rw [supported] at hs
    rw [goInts] at hi
    obtain ⟨ys, hys⟩ := readBackAll_isSome xs hs hi
    exact ⟨_, by rw [readBack, hys]⟩
  | mapBool m => simp [supported] at hs
  | chan => simp [supported] at hs
  | func => simp [supported] at hs
  | nan => simp [supported] at hs
  | inf neg => simp [supported] at hs
  | marshaler typ err => simp [supported] at hs
termination_by sizeOf v
theorem readBackAll_isSome (xs : List GoValue) (hs : supportedAll xs = true)
    (hi : allGoInts xs = true) : ∃ ds, readBackAll xs = some ds := by
  cases xs with
  | nil => exact ⟨_, by rw [readBackAll]⟩
  | cons x xs =>
    rw [supportedAll, Bool.and_eq_true] at hs
    rw [allGoInts, Bool.and_eq_true] at hi
    obtain ⟨y, hy⟩ := readBack_isSome x hs.1 hi.1
    obtain ⟨ys, hys⟩ := readBackAll_isSome xs hs.2 hi.2
    exact ⟨_, by rw [readBackAll, hy, hys]⟩
termination_by sizeOf xs
end

mutual
theorem isExact_sameValue (v : GoValue) (h : isExact v = true) :
    ∃ d, sameValue v = some d ∧ readBack v = some d ∧ supported v = true := by
  cases v with
  | nil => exact ⟨_, by rw [sameValue], by rw [readBack], by rw [supported]⟩
  | bool t => exact ⟨_, by rw [sameValue], by rw [readBack], by rw [supported]⟩
  | int n => simp [isExact] at h
  | str s => exact ⟨_, by rw [sameValue], by rw [readBack], by rw [supported]⟩
  | slice xs =>
    rw [isExact] at h
    obtain ⟨ys, h1, h2, h3⟩ := allExact_sameValues xs h
    exact ⟨_, by rw [sameValue, h1], by rw [readBack, h2], by rw [supported, h3]⟩
  | mapBool m => simp [isExact] at h
  | chan => simp [isExact] at h
  | func => simp [isExact] at h
  | nan => simp [isExact] at h
  | inf neg => simp [isExact] at h
  | marshaler typ err => simp [isExact] at h
termination_by sizeOf v
theorem allExact_sameValues (xs : List GoValue) (h : allExact xs = true) :
    ∃ ds, sameValues xs = some ds ∧ readBackAll xs = some ds ∧ supportedAll xs = true := by
  cases xs with
  | nil => exact ⟨_, by rw [sameValues], by rw [readBackAll], by rw [supportedAll]⟩
  | cons x xs =>
    rw [allExact, Bool.and_eq_true] at h
    obtain ⟨y, h1, h2, h3⟩ := isExact_sameValue x h.1
    obtain ⟨ys, h4, h5, h6⟩ := allExact_sameValues xs h.2
    exact ⟨_, by rw [sameValues, h1, h4], by rw [readBackAll, h2, h5],
      by rw [supportedAll, h3, h6]; rfl⟩
termination_by sizeOf xs
end

/-! ## What `respond` does to the sink -/

theorem marshal_nil : marshal GoValue.nil = .ok ['n', 'u', 'l', 'l'] := by
  rw [marshal]

theorem marshal_str (s : String) : marshal (GoValue.str s) = .ok (appendString s) := by
  rw [marshal]

theorem WriteHeader_accepts (w : ResponseRecorder) (c : Int) (ha : Accepts w c) :
    ((w.HeaderSet "Content-Type" contentType).WriteHeader c).2 = none := by
  unfold ResponseRecorder.WriteHeader ResponseRecorder.HeaderSet checkWriteHeaderCode
  rcases ha with h | h
  · simp [h]
  · have h1 : ¬ (c < 100 ∨ c > 999) := by omega
    cases hw : w.wroteHeader <;> simp [h1]

theorem WriteHeader_rejects (w : ResponseRecorder) (c : Int) (hw : w.wroteHeader = false)
    (hc : ¬ (100 ≤ c ∧ c ≤ 999)) :
    (w.HeaderSet "Content-Type" contentType).WriteHeader c
      = (w.HeaderSet "Content-Type" contentType,
          some ("invalid WriteHeader code " ++ toString c)) := by
  have h1 : c < 100 ∨ c > 999 := by omega
  simp [ResponseRecorder.WriteHeader, ResponseRecorder.HeaderSet, checkWriteHeaderCode, hw, h1]

theorem respond_rejected (w : ResponseRecorder) (c : Int) (ps : List GoValue)
    (hw : w.wroteHeader = false) (hc : ¬ (100 ≤ c ∧ c ≤ 999)) :
    respond w c ps = (w.HeaderSet "Content-Type" contentType,
      some (PanicValue.text ("invalid WriteHeader code " ++ toString c))) := by
  have h := WriteHeader_rejects w c hw hc
  simp only [contentType] at h
  simp only [respond, h, contentType]

theorem committed_wroteHeader (w : ResponseRecorder) (c : Int) (ha : Accepts w c) :
    ((w.HeaderSet "Content-Type" contentType).WriteHeader c).1.wroteHeader = true := by
  unfold ResponseRecorder.WriteHeader ResponseRecorder.HeaderSet checkWriteHeaderCode
  rcases ha with h | h
  · simp [h]
  · have h1 : ¬ (c < 100 ∨ c > 999) := by omega
    cases hw : w.wroteHeader <;> simp [h1]

theorem committed_Body (w : ResponseRecorder) (c : Int) :
    ((w.HeaderSet "Content-Type" contentType).WriteHeader c).1.Body = w.Body := by
  unfold ResponseRecorder.WriteHeader ResponseRecorder.HeaderSet checkWriteHeaderCode
  cases w.wroteHeader
  · simp only [Bool.false_eq_true, if_false]
    split <;> rfl
  · rfl

theorem committed_HeaderMap (w : ResponseRecorder) (c : Int) :
    ((w.HeaderSet "Content-Type" contentType).WriteHeader c).1.HeaderMap
      = w.HeaderMap.Set "Content-Type" contentType := by
  unfold ResponseRecorder.WriteHeader ResponseRecorder.HeaderSet checkWriteHeaderCode
  cases w.wroteHeader
  · simp only [Bool.false_eq_true, if_false]
    split <;> rfl
  · rfl

theorem committed_writeErr (w : ResponseRecorder) (c : Int) :
    ((w.HeaderSet "Content-Type" contentType).WriteHeader c).1.writeErr = w.writeErr := by
  unfold ResponseRecorder.WriteHeader ResponseRecorder.HeaderSet checkWriteHeaderCode
  cases w.wroteHeader
  · simp only [Bool.false_eq_true, if_false]
    split <;> rfl
  · rfl

theorem committed_Code (w : ResponseRecorder) (c : Int) (hw : w.wroteHeader = false)
    (hc : 100 ≤ c ∧ c ≤ 999) :
    ((w.HeaderSet "Content-Type" contentType).WriteHeader c).1.Code = c := by
  have h1 : ¬ (c < 100 ∨ c > 999) := by omega
  simp [ResponseRecorder.WriteHeader, ResponseRecorder.HeaderSet, checkWriteHeaderCode, hw, h1]

theorem committed_snapHeader (w : ResponseRecorder) (c : Int) (hw : w.wroteHeader = false)
    (hc : 100 ≤ c ∧ c ≤ 999) :
    ((w.HeaderSet "Content-Type" contentType).WriteHeader c).1.snapHeader
      = w.HeaderMap.Set "Content-Type" contentType := by
  have h1 : ¬ (c < 100 ∨ c > 999) := by omega
  simp [ResponseRecorder.WriteHeader, ResponseRecorder.HeaderSet, checkWriteHeaderCode, hw, h1]

theorem Write_committed (w : ResponseRecorder) (buf : List Char) (hw : w.wroteHeader = true)
    (he : w.writeErr = none) :
    w.Write buf = ({ w with Body := w.Body ++ String.mk buf }, none) := by
  simp [ResponseRecorder.Write, hw, he]

theorem Write_failing (w : ResponseRecorder) (buf : List Char) (hw : w.wroteHeader = true)
    (m : String) (he : w.writeErr = some m) :
    w.Write buf = (w, some m) := by
  simp [ResponseRecorder.Write, hw, he]

theorem written (w : ResponseRecorder) (c : Int) (buf : List Char) (ha : Accepts w c)
    (he : w.writeErr = none) :
    ((w.HeaderSet "Content-Type" contentType).WriteHeader c).1.Write buf
      = ({ ((w.HeaderSet "Content-Type" contentType).WriteHeader c).1 with
            Body := w.Body ++ String.mk buf }, none) := by
  rw [Write_committed _ buf (committed_wroteHeader w c ha)
    ((committed_writeErr w c).trans he), committed_Body]

theorem respond_cons_ok (w : ResponseRecorder) (c : Int) (p : GoValue) (qs : List GoValue)
    (d : List Char) (ha : Accepts w c) (he : w.writeErr = none) (h : marshal p = .ok d) :
    respond w c (p :: qs) =
      ({ ((w.HeaderSet "Content-Type" contentType).WriteHeader c).1 with
          Body := w.Body ++ String.mk (envelope c d ++ ['\n']) }, none) := by
  have h1 := WriteHeader_accepts w c ha
  have h2 := written w c (envelope c d ++ ['\n']) ha he
  simp only [contentType, envelope] at h1 h2
  simp only [respond, Encode, Response.marshal, h, contentType, envelope]
  rcases hx : (w.HeaderSet "Content-Type" "application/json; charset=UTF-8").WriteHeader c
    with ⟨w1, o⟩
  rw [hx] at h1 h2
  simp only at h1 h2
  subst h1
  simp only [h2]

theorem respond_cons_error (w : ResponseRecorder) (c : Int) (p : GoValue) (qs : List GoValue)
    (e : EncodeError) (ha : Accepts w c) (h : marshal p = .error e) :
    respond w c (p :: qs) = (((w.HeaderSet "Content-Type" contentType).WriteHeader c).1,
      some (PanicValue.error (Error.marshal e))) := by
  have h1 := WriteHeader_accepts w c ha
  simp only [contentType] at h1
  simp only [respond, Encode, Response.marshal, h, contentType]
  rcases hx : (w.HeaderSet "Content-Type" "application/json; charset=UTF-8").WriteHeader c
    with ⟨w1, o⟩
  rw [hx] at h1
  simp only at h1
  subst h1
  rfl

theorem respond_cons_write_error (w : ResponseRecorder) (c : Int) (p : GoValue)
    (qs : List GoValue) (d : List Char) (m : String) (ha : Accepts w c)
    (he : w.writeErr = some m) (h : marshal p = .ok d) :
    respond w c (p :: qs) = (((w.HeaderSet "Content-Type" contentType).WriteHeader c).1,
      some (PanicValue.error (Error.write m))) := by
  have h1 := WriteHeader_accepts w c ha
  have h2 := Write_failing _ (envelope c d ++ ['\n']) (committed_wroteHeader w c ha) m
    ((committed_writeErr w c).trans he)
  simp only [contentType, envelope] at h1 h2
  simp only [respond, Encode, Response.marshal, h, contentType, envelope]
  rcases hx : (w.HeaderSet "Content-Type" "application/json; charset=UTF-8").WriteHeader c
    with ⟨w1, o⟩
  rw [hx] at h1 h2
  simp only at h1 h2
  subst h1
  simp only [h2]

theorem respond_nil (w : ResponseRecorder) (c : Int) :
    respond w c [] = respond w c [GoValue.str (StatusText c)] := rfl

theorem envelope_marshal (c : Int) (p : GoValue) (d : List Char) (h : marshal p = .ok d) :
    Response.marshal { Code := c, Data := p } = .ok (envelope c d) := by
  simp [Response.marshal, h, envelope]

theorem string_append_left_cancel (a b c : String) (h : a ++ b = a ++ c) : b = c := by
  have := congrArg String.data h
  simp only [String.data_append] at this
  exact String.ext (List.append_cancel_left this)

theorem range_int64 (c : Int) (hc : 100 ≤ c ∧ c ≤ 999) :
    -(2 : Int) ^ 63 ≤ c ∧ c < (2 : Int) ^ 63 := by
  have e : (2 : Int) ^ 63 = 9223372036854775808 := by norm_num
  rw [e]
  omega

theorem helpers_run : ∀ h ∈ helpers, h.run = fun w ps => respond w h.docCode ps := by
  simp only [helpers, List.forall_mem_cons]
  repeat' constructor
  all_goals first | rfl | (intro h hh; cases hh)

theorem helpers_range : ∀ h ∈ helpers, 100 ≤ h.docCode ∧ h.docCode ≤ 999 := by
  have key : ∀ c ∈ helperCodes, 100 ≤ c ∧ c ≤ 999 := by decide
  exact fun h hh => key _ (List.mem_map_of_mem _ hh)

theorem respond_Code (w : ResponseRecorder) (c : Int) (ps : List GoValue)
    (hw : w.wroteHeader = false) (hc : 100 ≤ c ∧ c ≤ 999) : (respond w c ps).1.Code = c := by
  have ha : Accepts w c := Or.inr hc
  have key : ∀ p qs, (respond w c (p :: qs)).1.Code = c := by
    intro p qs
    cases hm : marshal p with
    | error e => rw [respond_cons_error w c p qs e ha hm]; exact committed_Code w c hw hc
    | ok d =>
      cases he : w.writeErr with
      | none => rw [respond_cons_ok w c p qs d ha he hm]; exact committed_Code w c hw hc
      | some m =>
        rw [respond_cons_write_error w c p qs d m ha he hm]; exact committed_Code w c hw hc
  cases ps with
  | nil => rw [respond_nil]; exact key _ _
  | cons p qs => exact key p qs

theorem respond_ok_Body (w : ResponseRecorder) (c : Int) (p : GoValue) (qs : List GoValue)
    (d : List Char) (ha : Accepts w c) (he : w.writeErr = none) (h : marshal p = .ok d) :
    (respond w c (p :: qs)).2 = none ∧
      (respond w c (p :: qs)).1.Body = w.Body ++ String.mk (envelope c d ++ ['\n']) := by
  rw [respond_cons_ok w c p qs d ha he h]
  exact ⟨rfl, rfl⟩

theorem respond_eq_first (w : ResponseRecorder) (c : Int) (ps : List GoValue) :
    respond w c ps = respond w c [(envelopeOf c ps).Data] := by
  cases ps <;> rfl

theorem not_accepts (w : ResponseRecorder) (c : Int) (ha : ¬ Accepts w c) :
    w.wroteHeader = false ∧ ¬ (100 ≤ c ∧ c ≤ 999) := by
  refine ⟨?_, fun h => ha (Or.inr h)⟩
  cases h : w.wroteHeader
  · rfl
  · exact absurd (Or.inl h) ha

theorem respond_none_inv (w : ResponseRecorder) (c : Int) (p : GoValue) (qs : List GoValue)
    (h : (respond w c (p :: qs)).2 = none) :
    Accepts w c ∧ w.writeErr = none ∧ ∃ d, marshal p = .ok d := by
  by_cases ha : Accepts w c
  · cases hm : marshal p with
    | error e => rw [respond_cons_error w c p qs e ha hm] at h; cases h
    | ok d =>
      cases he : w.writeErr with
      | none => exact ⟨ha, rfl, d, rfl⟩
      | some m => rw [respond_cons_write_error w c p qs d m ha he hm] at h; cases h
  · obtain ⟨hw, hc⟩ := not_accepts w c ha
    rw [respond_rejected w c _ hw hc] at h
    cases h

theorem respond_cons_completes (w : ResponseRecorder) (c : Int) (p : GoValue)
    (qs : List GoValue) (hc : 100 ≤ c ∧ c ≤ 999) (hg : goInts p = true)
    (h : (respond w c (p :: qs)).2 = none) :
    ∃ out r, (respond w c (p :: qs)).1.Body = w.Body ++ String.mk out ∧ Decode out = some r ∧
      r.Code = c := by
  obtain ⟨ha, he, d, hd⟩ := respond_none_inv w c p qs h
  obtain ⟨v, hv⟩ := readBack_isSome p ((marshal_ok_iff p).1 ⟨d, hd⟩) hg
  exact ⟨_, _, (respond_ok_Body w c p qs d ha he hd).2,
    Decode_envelope c p d [] v hd hv (range_int64 c hc), rfl⟩

theorem respond_completes (w : ResponseRecorder) (c : Int) (ps : List GoValue)
    (hc : 100 ≤ c ∧ c ≤ 999) (hg : allGoInts ps = true) (h : (respond w c ps).2 = none) :
    ∃ out r, (respond w c ps).1.Body = w.Body ++ String.mk out ∧ Decode out = some r ∧
      r.Code = c := by
  cases ps with
  | nil => exact respond_cons_completes w c _ [] hc (by rw [goInts]) h
  | cons p qs =>
    rw [allGoInts, Bool.and_eq_true] at hg
    exact respond_cons_completes w c p qs hc hg.1 h

theorem respond_panics (w : ResponseRecorder) (c : Int) (ps : List GoValue)
    (h : (respond w c ps).2 ≠ none) : (respond w c ps).1.Body = w.Body := by
  rw [respond_eq_first] at h ⊢
  by_cases ha : Accepts w c
  · cases hm : marshal (envelopeOf c ps).Data with
    | error e => rw [respond_cons_error w c _ [] e ha hm]; exact committed_Body w c
    | ok d =>
      cases he : w.writeErr with
      | none => rw [respond_cons_ok w c _ [] d ha he hm] at h; exact absurd rfl h
      | some m => rw [respond_cons_write_error w c _ [] d m ha he hm]; exact committed_Body w c
  · obtain ⟨hw, hc⟩ := not_accepts w c ha
    rw [respond_rejected w c _ hw hc]
    rfl

theorem committed_Code_keep (w : ResponseRecorder) (c : Int) (hw : w.wroteHeader = true) :
    ((w.HeaderSet "Content-Type" contentType).WriteHeader c).1.Code = w.Code := by
  simp [ResponseRecorder.WriteHeader, ResponseRecorder.HeaderSet, hw]

theorem respond_Code_committed (w : ResponseRecorder) (c : Int) (ps : List GoValue)
    (hw : w.wroteHeader = true) : (respond w c ps).1.Code = w.Code := by
  have ha : Accepts w c := Or.inl hw
  rw [respond_eq_first]
  cases hm : marshal (envelopeOf c ps).Data with
  | error e => rw [respond_cons_error w c _ [] e ha hm]; exact committed_Code_keep w c hw
  | ok d =>
    cases he : w.writeErr with
    | none => rw [respond_cons_ok w c _ [] d ha he hm]; exact committed_Code_keep w c hw
    | some m =>
      rw [respond_cons_write_error w c _ [] d m ha he hm]; exact committed_Code_keep w c hw

theorem respond_panics_of_writeErr (w : ResponseRecorder) (c : Int) (ps : List GoValue)
    (he : w.writeErr ≠ none) : (respond w c ps).2 ≠ none := by
  intro h
  rw [respond_eq_first] at h
  exact he (respond_none_inv w c _ [] h).2.1

theorem appendChar_plain (ch : Char) (h : Plain ch) : appendChar ch = [ch] := by
  obtain ⟨h1, h2, h3, h4, h5, h6, h7, h8⟩ := h
  have hb : ch ≠ '\x08' := by rintro rfl; revert h3; decide
  have hf : ch ≠ '\x0c' := by rintro rfl; revert h3; decide
  have hn : ch ≠ '\n' := by rintro rfl; revert h3; decide
  have hr : ch ≠ '\r' := by rintro rfl; revert h3; decide
  have ht : ch ≠ '\t' := by rintro rfl; revert h3; decide
  have h3' : ¬ ch.toNat < 32 := by omega
  simp [appendChar, h1, h2, hb, hf, hn, hr, ht, h3', h4, h5, h6, h7, h8]

theorem flatMap_appendChar_plain (cs : List Char) (h : ∀ ch ∈ cs, Plain ch) :
    cs.flatMap appendChar = cs := by
  induction cs with
  | nil => rfl
  | cons c cs ih =>
    rw [List.flatMap_cons, appendChar_plain c (h c (List.mem_cons_self _ _)),
      ih (fun ch hch => h ch (List.mem_cons_of_mem _ hch))]
    rfl

theorem digitChar_eq : ∀ n : Nat, n < 10 → digitChar n = Nat.digitChar n := by
  decide

theorem formatUint_eq_toDigitsCore (fuel : Nat) : ∀ (n : Nat) (acc : List Char),
    formatUint fuel n acc = Nat.toDigitsCore 10 fuel n acc := by
  induction fuel with
  | zero => intro n acc; rfl
  | succ fuel ih =>
    intro n acc
    simp only [formatUint, Nat.toDigitsCore]
    by_cases h : n < 10
    · have h0 : n / 10 = 0 := by omega
      have hm : n % 10 = n := by omega
      simp [h, h0, hm, digitChar_eq n h]
    · have h0 : ¬ n / 10 = 0 := by omega
      simp [h, h0, ih, digitChar_eq _ (Nat.mod_lt n (by decide : 0 < 10))]

theorem FormatInt_eq_toString (z : Int) : String.mk (FormatInt z) = toString z := by
  cases z with
  | ofNat m =>
    show String.mk (formatUint (m + 1) m []) = Nat.repr m
    rw [formatUint_eq_toDigitsCore]
    rfl
  | negSucc m =>
    show String.mk ('-' :: formatUint (m + 2) (m + 1) []) = "-" ++ Nat.repr (m + 1)
    rw [formatUint_eq_toDigitsCore]
    rfl

theorem StatusText_ne_empty (c : Int) (h : StatusText c ≠ "") : c ∈ statusCodes := by
  by_contra hc
  apply h
  have hl : statusText.lookup c = none := by
    rw [List.lookup_eq_none_iff]
    intro p hp
    simp only [bne_iff_ne, ne_eq]
    rintro rfl
    exact hc (List.mem_map_of_mem _ hp)
  simp [StatusText, hl]

/-! ## The effects on the sink and their order -/

theorem Header_Set_lookup (h : Header) (key value : String) :
    (h.Set key value).lookup key = some [value] := by
  simp [Header.Set, List.lookup]

theorem lookup_filter_ne (h : Header) (key k : String) (hk : k ≠ key) :
    (h.filter (fun kv => kv.1 != key)).lookup k = h.lookup k := by
  induction h with
  | nil => rfl
  | cons a t ih =>
    obtain ⟨a1, a2⟩ := a
    by_cases ha : a1 = key
    · subst ha
      have : (k == a1) = false := by simpa using hk
      simp [List.filter, List.lookup, this, ih]
    · have hf : (a1 != key) = true := by simpa using ha
      simp only [List.filter, hf, List.lookup, ih]

theorem Header_Set_lookup_ne (h : Header) (key value k : String) (hk : k ≠ key) :
    (h.Set key value).lookup k = h.lookup k := by
  have : (k == key) = false := by simpa using hk
  simp [Header.Set, List.lookup, this, lookup_filter_ne h key k hk]

theorem respond_eq_perform (w : ResponseRecorder) (c : Int) (ps : List GoValue)
    (h : (respond w c ps).2 = none) :
    Accepts w c ∧ w.writeErr = none ∧
    ∃ b, (envelopeOf c ps).marshal = .ok b ∧
      perform w [Effect.HeaderSet "Content-Type" contentType,
        Effect.WriteHeader c, Effect.Write (b ++ ['\n'])] = ((respond w c ps).1, none) ∧
      (respond w c ps).1 = { ((w.HeaderSet "Content-Type" contentType).WriteHeader c).1 with
        Body := w.Body ++ String.mk (b ++ ['\n']) } := by
  rw [respond_eq_first] at h ⊢
  obtain ⟨ha, he, d, hd⟩ := respond_none_inv w c _ [] h
  have hm : (envelopeOf c ps).marshal = .ok (envelope c d) := envelope_marshal c _ d hd
  refine ⟨ha, he, _, hm, ?_, ?_⟩
  · rw [respond_cons_ok w c _ [] d ha he hd]
    have h1 := WriteHeader_accepts w c ha
    have h2 := written w c (envelope c d ++ ['\n']) ha he
    simp only [perform, Effect.apply]
    rcases hx : (w.HeaderSet "Content-Type" contentType).WriteHeader c with ⟨w1, o⟩
    rw [hx] at h1 h2
    simp only at h1 h2
    subst h1
    simp only [h2]
  · rw [respond_cons_ok w c _ [] d ha he hd]

/-! ## The claims -/

/-- C1, the claim as stated fails.  An `int` payload does not come back as
itself: Respond(w, 200, 5) on a fresh recorder completes and the body decodes
to the `float64` 5, which is not the `int` 5, and 9007199254740993 comes back
as the `float64` 9007199254740992.  And a status code outside 100..999 is not
set at all: Respond(w, 0, "x") panics inside WriteHeader, the status stays 200
and nothing is written. -/
theorem respond_payload_roundtrip_counterexample :
    ((Respond NewRecorder 200 [GoValue.int 5]).2 = none ∧
      Decode (Respond NewRecorder 200 [GoValue.int 5]).1.Body.toList
        = some { Code := 200, Data := JSONValue.float64 5 } ∧
      ¬ DataEquals (JSONValue.float64 5) (GoValue.int 5)) ∧
    Decode (Respond NewRecorder 200 [GoValue.int 9007199254740993]).1.Body.toList
      = some { Code := 200, Data := JSONValue.float64 9007199254740992 } ∧
    ((Respond NewRecorder 0 [GoValue.str "x"]).2
        = some (PanicValue.text "invalid WriteHeader code 0") ∧
      (Respond NewRecorder 0 [GoValue.str "x"]).1.Code = 200 ∧
      (Respond NewRecorder 0 [GoValue.str "x"]).1.Body = "") := by
  refine ⟨⟨by decide, by rfl, ?_⟩, by rfl, by decide, by decide, by decide⟩
  simp [DataEquals, sameValue]

/-- C1, amended: for every status code c from 100 to 999 and every payload p
that is nil, a boolean, a string of valid UTF-8 or a non-nil `[]interface{}`
slice of such values, a call Respond(sink, c, p) on a sink whose status is not
committed yet and whose Write succeeds completes, sets the transport status to
c, and appends to the body bytes that decode to the envelope with code c and a
data field equal to p, slices compared element by element.  An `int` payload
below 2^53 in magnitude is read back as the `float64` of the same value, not
as an `int`. -/
theorem respond_payload_roundtrip (w : ResponseRecorder) (c : Int) (p : GoValue)
    (hc : 100 ≤ c ∧ c ≤ 999) (hw : w.wroteHeader = false) (he : w.writeErr = none) :
    (isExact p = true →
      (Respond w c [p]).2 = none ∧ (Respond w c [p]).1.Code = c ∧
      ∃ out d, (Respond w c [p]).1.Body = w.Body ++ String.mk out ∧
        Decode out = some { Code := c, Data := d } ∧ DataEquals d p) ∧
    (∀ n : Int, n.natAbs < 2 ^ 53 →
      (Respond w c [GoValue.int n]).2 = none ∧ (Respond w c [GoValue.int n]).1.Code = c ∧
      ∃ out, (Respond w c [GoValue.int n]).1.Body = w.Body ++ String.mk out ∧
        Decode out = some { Code := c, Data := JSONValue.float64 n }) := by
  have ha : Accepts w c := Or.inr hc
  constructor
  · intro hp
    obtain ⟨d, h1, h2, h3⟩ := isExact_sameValue p hp
    obtain ⟨b, hb⟩ := (marshal_ok_iff p).2 h3
    obtain ⟨r1, r2⟩ := respond_ok_Body w c p [] b ha he hb
    exact ⟨r1, respond_Code w c [p] hw hc, _, d, r2,
      Decode_envelope c p b [] d hb h2 (range_int64 c hc), h1⟩
  · intro n hn
    have hb : marshal (GoValue.int n) = .ok (FormatInt n) := by rw [marshal]
    have h2 : readBack (GoValue.int n) = some (JSONValue.float64 n) := by
      rw [readBack]; exact convertNumber_exact n hn
    obtain ⟨r1, r2⟩ := respond_ok_Body w c (GoValue.int n) [] _ ha he hb
    exact ⟨r1, respond_Code w c _ hw hc, _, r2,
      Decode_envelope c _ _ [] _ hb h2 (range_int64 c hc)⟩

/-- Witness for C1 amended: the test input, status 200 and the string payload
`{"foo": "bar"}` on a fresh recorder. -/
theorem respond_payload_roundtrip_witness :
    (100 ≤ (200 : Int) ∧ (200 : Int) ≤ 999) ∧ NewRecorder.wroteHeader = false ∧
    NewRecorder.writeErr = none ∧ isExact (GoValue.str "\x7b\"foo\": \"bar\"\x7d") = true ∧
    (Respond NewRecorder 200 [GoValue.str "\x7b\"foo\": \"bar\"\x7d"]).2 = none ∧
    (Respond NewRecorder 200 [GoValue.str "\x7b\"foo\": \"bar\"\x7d"]).1.Code = 200 ∧
      ∃ out d, (Respond NewRecorder 200 [GoValue.str "\x7b\"foo\": \"bar\"\x7d"]).1.Body
          = NewRecorder.Body ++ String.mk out ∧
        Decode out = some { Code := 200, Data := d } ∧
        DataEquals d (GoValue.str "\x7b\"foo\": \"bar\"\x7d") :=
  ⟨by decide, rfl, rfl, rfl,
    (respond_payload_roundtrip NewRecorder 200 (GoValue.str "\x7b\"foo\": \"bar\"\x7d")
      (by decide) rfl rfl).1 rfl⟩

/-- C2, the claim as stated fails: for the status codes 0, 99 and 1000 a call
Respond(w, c) on a fresh recorder panics inside WriteHeader; the status stays
200 and no body is written. -/
theorem respond_no_payload_counterexample :
    ((Respond NewRecorder 0 []).2 = some (PanicValue.text "invalid WriteHeader code 0") ∧
      (Respond NewRecorder 0 []).1.Code = 200 ∧ (Respond NewRecorder 0 []).1.Body = "") ∧
    ((Respond NewRecorder 99 []).2 = some (PanicValue.text "invalid WriteHeader code 99") ∧
      (Respond NewRecorder 99 []).1.Code = 200 ∧ (Respond NewRecorder 99 []).1.Body = "") ∧
    ((Respond NewRecorder 1000 []).2 = some (PanicValue.text "invalid WriteHeader code 1000") ∧
      (Respond NewRecorder 1000 []).1.Code = 200 ∧
      (Respond NewRecorder 1000 []).1.Body = "") := by
  decide

/-- C2, amended: for every status code c from 100 to 999, Respond(sink, c)
without payload, on a sink whose status is not committed yet and whose Write
succeeds, completes, sets the transport status to c and appends bytes that
decode to the envelope whose data is the string http.StatusText(c); the
phrases of 403 and 404 are "Forbidden" and "Not Found". -/
theorem respond_no_payload_reason_phrase (w : ResponseRecorder) (c : Int)
    (hc : 100 ≤ c ∧ c ≤ 999) (hw : w.wroteHeader = false) (he : w.writeErr = none) :
    ((Respond w c []).2 = none ∧ (Respond w c []).1.Code = c ∧
      ∃ out, (Respond w c []).1.Body = w.Body ++ String.mk out ∧
        Decode out = some { Code := c, Data := JSONValue.str (StatusText c) }) ∧
    StatusText 403 = "Forbidden" ∧ StatusText 404 = "Not Found" := by
  refine ⟨?_, by decide, by decide⟩
  have ha : Accepts w c := Or.inr hc
  obtain ⟨r1, r2⟩ := respond_ok_Body w c (GoValue.str (StatusText c)) [] _ ha he (marshal_str _)
  exact ⟨r1, respond_Code w c [] hw hc, _, r2,
    Decode_envelope c _ _ [] _ (marshal_str _) (by rw [readBack]) (range_int64 c hc)⟩

/-- Witness for C2 amended: `Respond(w, 404)` on a fresh recorder. -/
theorem respond_no_payload_reason_phrase_witness :
    (100 ≤ (404 : Int) ∧ (404 : Int) ≤ 999) ∧ NewRecorder.wroteHeader = false ∧
    NewRecorder.writeErr = none ∧
    ((Respond NewRecorder 404 []).2 = none ∧ (Respond NewRecorder 404 []).1.Code = 404 ∧
      ∃ out, (Respond NewRecorder 404 []).1.Body = NewRecorder.Body ++ String.mk out ∧
        Decode out = some { Code := 404, Data := JSONValue.str (StatusText 404) }) :=
  ⟨by decide, rfl, rfl, (respond_no_payload_reason_phrase NewRecorder 404 (by decide) rfl rfl).1⟩

theorem envelope_ne (c : Int) (p q : GoValue) (dp dq : List Char) (vp vq : JSONValue)
    (hp : marshal p = .ok dp) (hq : marshal q = .ok dq)
    (rp : readBack p = some vp) (rq : readBack q = some vq)
    (hc : -(2 : Int) ^ 63 ≤ c ∧ c < (2 : Int) ^ 63) (hne : vp ≠ vq) :
    envelope c dp ++ ['\n'] ≠ envelope c dq ++ ['\n'] := by
  intro h
  have h1 := Decode_envelope c p dp [] vp hp rp hc
  have h2 := Decode_envelope c q dq [] vq hq rq hc
  rw [h, h2] at h1
  simp at h1
  exact hne h1.symm

/-- C3, the claim as stated fails: for the status code 0, on a fresh recorder,
Respond(w, 0, nil) and Respond(w, 0) both panic inside WriteHeader and write
nothing, so no body has a null data field and the two bodies do not differ. -/
theorem respond_explicit_nil_counterexample :
    (Respond NewRecorder 0 [GoValue.nil]).2 = some (PanicValue.text "invalid WriteHeader code 0") ∧
    (Respond NewRecorder 0 [GoValue.nil]).1.Body = "" ∧
    (Respond NewRecorder 0 [GoValue.nil]).1.Body = (Respond NewRecorder 0 []).1.Body := by
  decide

/-- C3, amended: for every status code c from 100 to 999, on a sink whose
Write succeeds, Respond(sink, c, nil) with an explicit null payload completes
and appends bytes that decode to the envelope whose data is null; a first
payload is not replaced by the reason phrase: for every first payload p that
is nil, a boolean, a string of valid UTF-8 or a non-nil `[]interface{}` slice
of such (followed by any further values) the decoded data equals p; and the
bodies left by Respond(sink, c, nil) and Respond(sink, c) differ. -/
theorem respond_explicit_nil (w : ResponseRecorder) (c : Int) (hc : 100 ≤ c ∧ c ≤ 999)
    (he : w.writeErr = none) :
    ((Respond w c [GoValue.nil]).2 = none ∧
      ∃ out, (Respond w c [GoValue.nil]).1.Body = w.Body ++ String.mk out ∧
        Decode out = some { Code := c, Data := JSONValue.nil }) ∧
    (∀ (p : GoValue) (qs : List GoValue), isExact p = true →
      ∃ out d, (Respond w c (p :: qs)).1.Body = w.Body ++ String.mk out ∧
        Decode out = some { Code := c, Data := d } ∧ DataEquals d p) ∧
    (Respond w c [GoValue.nil]).1.Body ≠ (Respond w c []).1.Body := by
  have ha : Accepts w c := Or.inr hc
  have hr := range_int64 c hc
  refine ⟨?_, ?_, ?_⟩
  · obtain ⟨r1, r2⟩ := respond_ok_Body w c GoValue.nil [] _ ha he marshal_nil
    exact ⟨r1, _, r2, Decode_envelope c _ _ [] _ marshal_nil (by rw [readBack]) hr⟩
  · intro p qs hp
    obtain ⟨d, h1, h2, h3⟩ := isExact_sameValue p hp
    obtain ⟨b, hb⟩ := (marshal_ok_iff p).2 h3
    obtain ⟨-, r2⟩ := respond_ok_Body w c p qs b ha he hb
    exact ⟨_, d, r2, Decode_envelope c p b [] d hb h2 hr, h1⟩
  · obtain ⟨-, r2⟩ := respond_ok_Body w c GoValue.nil [] _ ha he marshal_nil
    obtain ⟨-, r3⟩ := respond_ok_Body w c (GoValue.str (StatusText c)) [] _ ha he (marshal_str _)
    unfold Respond
    rw [r2, respond_nil, r3]
    intro h
    have h1 := string_append_left_cancel _ _ _ h
    have h2 : envelope c ['n', 'u', 'l', 'l'] ++ ['\n']
        = envelope c (appendString (StatusText c)) ++ ['\n'] := by
      simpa using congrArg String.data h1
    exact envelope_ne c GoValue.nil (GoValue.str (StatusText c)) _ _ JSONValue.nil
      (JSONValue.str (StatusText c)) marshal_nil (marshal_str _) (by rw [readBack])
      (by rw [readBack]) hr (by simp) h2

/-- Witness for C3 amended: status 200 on a fresh recorder, with the empty
string as a first payload that is kept as it is. -/
theorem respond_explicit_nil_witness :
    (100 ≤ (200 : Int) ∧ (200 : Int) ≤ 999) ∧ NewRecorder.writeErr = none ∧
    isExact (GoValue.str "") = true ∧
    ∃ out d, (Respond NewRecorder 200 [GoValue.str "", GoValue.chan]).1.Body
        = NewRecorder.Body ++ String.mk out ∧
      Decode out = some { Code := 200, Data := d } ∧ DataEquals d (GoValue.str "") :=
  ⟨by decide, rfl, rfl,
    (respond_explicit_nil NewRecorder 200 (by decide) rfl).2.1 (GoValue.str "") [GoValue.chan] rfl⟩

/-- C4: every named helper H is the generic operation at the code c of its doc
comment: for every sink state and every payload list, H(sink, ps...) leaves
the same sink and the same outcome as Respond(sink, c, ps...); called without
payload on a sink whose status is not committed yet it yields transport status
c, and Teapot on a fresh recorder yields 418. -/
theorem helper_eq_Respond :
    (∀ h ∈ helpers, ∀ (w : ResponseRecorder) (ps : List GoValue),
      h.run w ps = Respond w h.docCode ps) ∧
    (∀ h ∈ helpers, ∀ w : ResponseRecorder, w.wroteHeader = false →
      (h.run w []).1.Code = h.docCode) ∧
    (Teapot NewRecorder []).1.Code = 418 := by
  refine ⟨fun h hh w ps => by rw [helpers_run h hh]; rfl, fun h hh w hw => ?_, by decide⟩
  rw [helpers_run h hh]
  exact respond_Code w h.docCode [] hw (helpers_range h hh)

/-- Witness for C4: the helper `Teapot`, bound to 418, on a fresh recorder. -/
theorem helper_eq_Respond_witness :
    (⟨"Teapot", 418, Teapot⟩ : Helper) ∈ helpers ∧ NewRecorder.wroteHeader = false ∧
      (Teapot NewRecorder []).1.Code = 418 :=
  ⟨by simp [helpers], rfl,
    helper_eq_Respond.2.1 ⟨"Teapot", 418, Teapot⟩ (by simp [helpers]) NewRecorder rfl⟩

/-- C5, the claim as stated fails.  On a fresh recorder,
Respond(w, 404, map[bool]string{true: ""}) panics, but the sink is not as it
was before the call: the status moved from 200 to 404 and the header map is no
longer empty.  The error is not always an unsupported-type error: for NaN it
is an unsupported-value error.  And with the status code 0 the panic is not
the encoder's error at all but the message of WriteHeader. -/
theorem respond_unserializable_counterexample :
    ((Respond NewRecorder 404 [GoValue.mapBool [(true, "")]]).2
        = some (PanicValue.error (Error.marshal (EncodeError.UnsupportedTypeError "map[bool]string"))) ∧
      ¬ ((Respond NewRecorder 404 [GoValue.mapBool [(true, "")]]).1.Code = NewRecorder.Code ∧
         (Respond NewRecorder 404 [GoValue.mapBool [(true, "")]]).1.HeaderMap = NewRecorder.HeaderMap ∧
         (Respond NewRecorder 404 [GoValue.mapBool [(true, "")]]).1.Body = NewRecorder.Body) ∧
      (Respond NewRecorder 404 [GoValue.mapBool [(true, "")]]).1.Code = 404 ∧
      NewRecorder.Code = 200 ∧
      (Respond NewRecorder 404 [GoValue.mapBool [(true, "")]]).1.HeaderMap
        = [("Content-Type", ["application/json; charset=UTF-8"])] ∧
      NewRecorder.HeaderMap = []) ∧
    (Respond NewRecorder 404 [GoValue.nan]).2
      = some (PanicValue.error (Error.marshal (EncodeError.UnsupportedValueError "NaN"))) ∧
    (Respond NewRecorder 0 [GoValue.mapBool [(true, "")]]).2
      = some (PanicValue.text "invalid WriteHeader code 0") := by
  decide

/-- C5, amended: for every first payload p that cannot be serialized (followed
by any further values) and every status code c from 100 to 999, or any status
code when the sink's status is committed already, Respond(sink, c, p) panics
with the error the encoder returns for p and writes no body byte: the body is
as it was before the call.  That error is an unsupported-type error for a map
keyed by booleans, a channel or a function, an unsupported-value error for a
NaN or an infinity, and a marshaler error for a value whose MarshalJSON fails.
The Content-Type header has been set by then, and on a sink whose status was
not committed yet the status c has been committed.  With a status code outside
100..999 on a sink whose status is not committed yet the call panics inside
WriteHeader instead; status and body are then as before. -/
theorem respond_unserializable (w : ResponseRecorder) (c : Int) (p : GoValue)
    (qs : List GoValue) (hp : ¬ Serializable p) :
    (Accepts w c →
      (∃ e, marshal p = .error e ∧
        (Respond w c (p :: qs)).2 = some (PanicValue.error (Error.marshal e))) ∧
      (Respond w c (p :: qs)).1.Body = w.Body ∧
      (Respond w c (p :: qs)).1.HeaderMap = w.HeaderMap.Set "Content-Type" contentType ∧
      (w.wroteHeader = false →
        (Respond w c (p :: qs)).1.Code = c ∧ (Respond w c (p :: qs)).1.wroteHeader = true)) ∧
    (¬ Accepts w c →
      (Respond w c (p :: qs)).2
        = some (PanicValue.text ("invalid WriteHeader code " ++ toString c)) ∧
      (Respond w c (p :: qs)).1.Body = w.Body ∧ (Respond w c (p :: qs)).1.Code = w.Code ∧
      (Respond w c (p :: qs)).1.wroteHeader = false) ∧
    ((∀ m, marshal (GoValue.mapBool m) = .error (EncodeError.UnsupportedTypeError "map[bool]string")) ∧
      marshal GoValue.chan = .error (EncodeError.UnsupportedTypeError "chan int") ∧
      marshal GoValue.func = .error (EncodeError.UnsupportedTypeError "func()") ∧
      marshal GoValue.nan = .error (EncodeError.UnsupportedValueError "NaN") ∧
      marshal (GoValue.inf false) = .error (EncodeError.UnsupportedValueError "+Inf") ∧
      marshal (GoValue.inf true) = .error (EncodeError.UnsupportedValueError "-Inf") ∧
      (∀ typ err, marshal (GoValue.marshaler typ err)
        = .error (EncodeError.MarshalerError typ err))) := by
  refine ⟨fun ha => ?_, fun ha => ?_, ?_⟩
  · obtain ⟨e, he⟩ := not_serializable_error p hp
    unfold Respond
    rw [respond_cons_error w c p qs e ha he]
    refine ⟨⟨e, he, rfl⟩, committed_Body w c, committed_HeaderMap w c, fun hw => ?_⟩
    have hc : 100 ≤ c ∧ c ≤ 999 := by
      rcases ha with h | h
      · rw [hw] at h; cases h
      · exact h
    exact ⟨committed_Code w c hw hc, committed_wroteHeader w c ha⟩
  · have hw : w.wroteHeader = false := by
      cases h : w.wroteHeader
      · rfl
      · exact absurd (Or.inl h) ha
    have hc : ¬ (100 ≤ c ∧ c ≤ 999) := fun h => ha (Or.inr h)
    unfold Respond
    rw [respond_rejected w c _ hw hc]
    exact ⟨rfl, rfl, rfl, hw⟩
  · refine ⟨fun m => by rw [marshal], by rw [marshal], by rw [marshal], by rw [marshal],
      by rw [marshal], by rw [marshal], fun typ err => by rw [marshal]⟩

/-- Witness for C5 amended: the test input, status 404 and a map keyed by
booleans, on a fresh recorder. -/
theorem respond_unserializable_witness :
    ¬ Serializable (GoValue.mapBool [(true, "")]) ∧ Accepts NewRecorder 404 ∧
    (Respond NewRecorder 404 [GoValue.mapBool [(true, "")]]).1.Body = NewRecorder.Body :=
  have h : ¬ Serializable (GoValue.mapBool [(true, "")]) := by decide
  ⟨h, by decide,
    ((respond_unserializable NewRecorder 404 (GoValue.mapBool [(true, "")]) [] h).1
      (by decide)).2.1⟩

/-- C6, the claim as stated fails: there is an input for which the two differ.
After Respond(w, 404) on a fresh recorder the status is committed; a second
call Respond(w, 200, "x") on that sink completes and appends an envelope whose
code field is 200, while the transport status stays 404. -/
theorem envelope_code_eq_status_counterexample :
    (Respond (Respond NewRecorder 404 []).1 200 [GoValue.str "x"]).2 = none ∧
    (Respond (Respond NewRecorder 404 []).1 200 [GoValue.str "x"]).1.Code = 404 ∧
    (Respond (Respond NewRecorder 404 []).1 200 [GoValue.str "x"]).1.Body
      = (Respond NewRecorder 404 []).1.Body
        ++ String.mk (envelope 200 (appendString "x") ++ ['\n']) ∧
    Decode (envelope 200 (appendString "x") ++ ['\n'])
      = some { Code := 200, Data := JSONValue.str "x" } := by
  refine ⟨by decide, by decide, by decide, by rfl⟩

/-- C6, amended: for every call of Respond with a status code c from 100 to
999, and for every call of a named helper, on a sink whose status is not
committed yet, with any payload list, the transport status the call sets is
the code passed; when the call completes and every `int` in the payloads is
in the range of Go's `int`, the bytes it appended decode to an envelope whose
code field equals that transport status; when it panics, it appended nothing.
On a sink whose status is committed already such a call leaves the transport
status as it was, while the envelope of a completed call, under the same
condition on its payloads, still carries the code passed, so the two differ
whenever the code passed is not the committed status. -/
theorem envelope_code_eq_status (w : ResponseRecorder) (ps : List GoValue) :
    (∀ c : Int, 100 ≤ c ∧ c ≤ 999 →
      (w.wroteHeader = false →
        (Respond w c ps).1.Code = c ∧
        ((Respond w c ps).2 = none → allGoInts ps = true →
          ∃ out r, (Respond w c ps).1.Body = w.Body ++ String.mk out ∧ Decode out = some r ∧
            r.Code = (Respond w c ps).1.Code)) ∧
      (w.wroteHeader = true →
        (Respond w c ps).1.Code = w.Code ∧
        ((Respond w c ps).2 = none → allGoInts ps = true →
          ∃ out r, (Respond w c ps).1.Body = w.Body ++ String.mk out ∧ Decode out = some r ∧
            r.Code = c)) ∧
      ((Respond w c ps).2 ≠ none → (Respond w c ps).1.Body = w.Body)) ∧
    (∀ h ∈ helpers,
      (w.wroteHeader = false →
        (h.run w ps).1.Code = h.docCode ∧
        ((h.run w ps).2 = none → allGoInts ps = true →
          ∃ out r, (h.run w ps).1.Body = w.Body ++ String.mk out ∧ Decode out = some r ∧
            r.Code = (h.run w ps).1.Code)) ∧
      (w.wroteHeader = true →
        (h.run w ps).1.Code = w.Code ∧
        ((h.run w ps).2 = none → allGoInts ps = true →
          ∃ out r, (h.run w ps).1.Body = w.Body ++ String.mk out ∧ Decode out = some r ∧
            r.Code = h.docCode)) ∧
      ((h.run w ps).2 ≠ none → (h.run w ps).1.Body = w.Body)) := by
  have key : ∀ c : Int, 100 ≤ c ∧ c ≤ 999 →
      (w.wroteHeader = false →
        (respond w c ps).1.Code = c ∧
        ((respond w c ps).2 = none → allGoInts ps = true →
          ∃ out r, (respond w c ps).1.Body = w.Body ++ String.mk out ∧ Decode out = some r ∧
            r.Code = (respond w c ps).1.Code)) ∧
      (w.wroteHeader = true →
        (respond w c ps).1.Code = w.Code ∧
        ((respond w c ps).2 = none → allGoInts ps = true →
          ∃ out r, (respond w c ps).1.Body = w.Body ++ String.mk out ∧ Decode out = some r ∧
            r.Code = c)) ∧
      ((respond w c ps).2 ≠ none → (respond w c ps).1.Body = w.Body) := by
    intro c hc
    refine ⟨fun hw => ⟨respond_Code w c ps hw hc, fun h hg => ?_⟩,
      fun hw => ⟨respond_Code_committed w c ps hw, fun h hg => respond_completes w c ps hc hg h⟩,
      respond_panics w c ps⟩
    rw [respond_Code w c ps hw hc]
    exact respond_completes w c ps hc hg h
  refine ⟨fun c hc => key c hc, fun h hh => ?_⟩
  rw [helpers_run h hh]
  exact key h.docCode (helpers_range h hh)

/-- Witness for C6 amended: `NotFound(w, "gone")` on a fresh recorder. -/
theorem envelope_code_eq_status_witness :
    (⟨"NotFound", 404, NotFound⟩ : Helper) ∈ helpers ∧ NewRecorder.wroteHeader = false ∧
    (NotFound NewRecorder [GoValue.str "gone"]).2 = none ∧
    allGoInts [GoValue.str "gone"] = true ∧
    ∃ out r, (NotFound NewRecorder [GoValue.str "gone"]).1.Body = NewRecorder.Body ++ String.mk out ∧
      Decode out = some r ∧ r.Code = (NotFound NewRecorder [GoValue.str "gone"]).1.Code :=
  ⟨by simp [helpers], rfl, rfl, rfl,
    (((envelope_code_eq_status NewRecorder [GoValue.str "gone"]).2 ⟨"NotFound", 404, NotFound⟩
      (by simp [helpers])).1 rfl).2 rfl rfl⟩

/-- C7: only the first payload value is honoured: for every sink, status code
c, payload p and further values qs, Respond(sink, c, p, qs...) leaves the same
sink and the same outcome as Respond(sink, c, p); so whatever qs holds, when p
is serializable the call never panics with an encoder error, and it completes
whenever the sink accepts the status code and its Write succeeds. -/
theorem respond_ignores_rest (w : ResponseRecorder) (c : Int) (p : GoValue)
    (qs : List GoValue) :
    Respond w c (p :: qs) = Respond w c [p] ∧
    (Serializable p → ∀ e : EncodeError,
      (Respond w c (p :: qs)).2 ≠ some (PanicValue.error (Error.marshal e))) ∧
    (Serializable p → Accepts w c → w.writeErr = none → (Respond w c (p :: qs)).2 = none) := by
  refine ⟨rfl, fun hp e => ?_, fun hp ha he => ?_⟩
  · obtain ⟨d, hd⟩ := (serializable_iff p).1 hp
    unfold Respond
    by_cases ha : Accepts w c
    · cases he : w.writeErr with
      | none => rw [respond_cons_ok w c p qs d ha he hd]; simp
      | some m => rw [respond_cons_write_error w c p qs d m ha he hd]; simp
    · obtain ⟨hw, hc⟩ := not_accepts w c ha
      rw [respond_rejected w c _ hw hc]
      simp
  · obtain ⟨d, hd⟩ := (serializable_iff p).1 hp
    exact (respond_ok_Body w c p qs d ha he hd).1

/-- Witness for C7: a string followed by a channel and a function. -/
theorem respond_ignores_rest_witness :
    Serializable (GoValue.str "a") ∧ Accepts NewRecorder 200 ∧ NewRecorder.writeErr = none ∧
    (Respond NewRecorder 200 [GoValue.str "a", GoValue.chan, GoValue.func]).2 = none :=
  ⟨by decide, by decide, rfl,
    (respond_ignores_rest NewRecorder 200 (GoValue.str "a") [GoValue.chan, GoValue.func]).2.2
      (by decide) (by decide) rfl⟩

/-- C8, the claim as stated fails: on a fresh recorder Respond(w, 200, "hello")
does not leave exactly the bytes `{"code":200,"data":"hello"}` in the body: a
newline follows them.  A string with `<`, which JSON itself lets stand
unescaped, is not copied as it is.  And for the status code 0 no body is
written at all. -/
theorem respond_hello_body_counterexample :
    (Respond NewRecorder 200 [GoValue.str "hello"]).1.Body
      ≠ "\x7b\"code\":200,\"data\":\"hello\"\x7d" ∧
    (Respond NewRecorder 200 [GoValue.str "hello"]).1.Body
      = "\x7b\"code\":200,\"data\":\"hello\"\x7d\n" ∧
    (Respond NewRecorder 200 [GoValue.str "a<b"]).1.Body
      = "\x7b\"code\":200,\"data\":\"a\\u003cb\"\x7d\n" ∧
    (Respond NewRecorder 0 [GoValue.str "hello"]).1.Body = "" := by
  decide

/-- C8, amended: the bytes written are the serialized envelope, keys `code`
then `data`, followed by one newline: for every string s of characters the
encoder copies as they are and every status code c that the sink accepts (any
c from 100 to 999, or any c at all when the sink's status is committed
already), on a sink whose Write succeeds, Respond(sink, c, s) completes and
appends exactly `{"code":<decimal c>,"data":"<s>"}` and a newline to the
body; and when the sink's status was not committed yet it sets status c. -/
theorem respond_string_body (w : ResponseRecorder) (c : Int) (s : String)
    (hs : ∀ ch ∈ s.toList, Plain ch) (ha : Accepts w c) (he : w.writeErr = none) :
    (Respond w c [GoValue.str s]).2 = none ∧
    (Respond w c [GoValue.str s]).1.Body
      = w.Body ++ ("\x7b\"code\":" ++ toString c ++ ",\"data\":\"" ++ s ++ "\"\x7d\n") ∧
    (w.wroteHeader = false → (Respond w c [GoValue.str s]).1.Code = c) := by
  obtain ⟨r1, r2⟩ := respond_ok_Body w c (GoValue.str s) [] _ ha he (marshal_str s)
  refine ⟨r1, ?_, fun hw => ?_⟩
  · unfold Respond
    rw [r2, ← FormatInt_eq_toString]
    congr 1
    have hfl : s.data.flatMap appendChar = s.data := flatMap_appendChar_plain _ hs
    apply String.ext
    simp [envelope, appendString, hfl]
  · rcases ha with h | h
    · rw [hw] at h; cases h
    · exact respond_Code w c _ hw h

/-- Witness for C8 amended: status 200 and the string `hello` on a fresh
recorder. -/
theorem respond_string_body_witness :
    (∀ ch ∈ "hello".toList, Plain ch) ∧ Accepts NewRecorder 200 ∧ NewRecorder.writeErr = none ∧
    (Respond NewRecorder 200 [GoValue.str "hello"]).1.Body
      = NewRecorder.Body ++ ("\x7b\"code\":" ++ toString (200 : Int) ++ ",\"data\":\"" ++ "hello"
          ++ "\"\x7d\n") :=
  have h : ∀ ch ∈ "hello".toList, Plain ch := by decide
  ⟨h, by decide, rfl, (respond_string_body NewRecorder 200 "hello" h (by decide) rfl).2.1⟩

/-- C9, the claim as stated fails: 421 has the reason phrase
"Misdirected Request" and the Responder interface names MisdirectedRequest and
SwitchProxy, yet no package-level helper is bound to 421 or to 306; the codes
103 and 425 have reason phrases and no helper either. -/
theorem helpers_cover_counterexample :
    StatusText 421 = "Misdirected Request" ∧
    (∀ h ∈ helpers, h.docCode ≠ 421) ∧ (∀ h ∈ helpers, h.docCode ≠ 306) ∧
    "MisdirectedRequest" ∈ Responder ∧ "MisdirectedRequest" ∉ helperNames ∧
    "SwitchProxy" ∈ Responder ∧ "SwitchProxy" ∉ helperNames ∧
    StatusText 103 ≠ "" ∧ StatusText 425 ≠ "" ∧
    (∀ h ∈ helpers, h.docCode ≠ 103) ∧ (∀ h ∈ helpers, h.docCode ≠ 425) := by
  have key : ∀ c : Int, c ∉ helperCodes → ∀ h ∈ helpers, h.docCode ≠ c := by
    intro c hc h hh heq
    exact hc (heq ▸ List.mem_map_of_mem _ hh)
  exact ⟨by decide, key 421 (by decide), key 306 (by decide), by decide, by decide, by decide,
    by decide, by decide, by decide, key 103 (by decide), key 425 (by decide)⟩

/-- C9, amended: the fifty-nine named helpers are bound to fifty-nine pairwise
distinct codes under pairwise distinct names; each of these codes lies between
100 and 511 and has a non-empty reason phrase; and every code with a non-empty
reason phrase, 103, 421 and 425 aside, has exactly one helper bound to it. -/
theorem helpers_cover :
    helpers.length = 59 ∧ helperCodes.Nodup ∧ helperNames.Nodup ∧
    (∀ h ∈ helpers, h.run = fun w ps => respond w h.docCode ps) ∧
    (∀ c ∈ helperCodes, 100 ≤ c ∧ c ≤ 511 ∧ StatusText c ≠ "") ∧
    (∀ c : Int, StatusText c ≠ "" → c ≠ 103 → c ≠ 421 → c ≠ 425 → helperCodes.count c = 1) := by
  refine ⟨rfl, by decide, by decide, helpers_run, by decide, ?_⟩
  have key : ∀ c ∈ statusCodes, c ≠ 103 → c ≠ 421 → c ≠ 425 → helperCodes.count c = 1 := by
    decide
  exact fun c hc => key c (StatusText_ne_empty c hc)

/-- Witness for C9 amended: 418, bound to `Teapot` alone. -/
theorem helpers_cover_witness :
    StatusText 418 ≠ "" ∧ helperCodes.count 418 = 1 :=
  ⟨by decide, helpers_cover.2.2.2.2.2 418 (by decide) (by decide) (by decide) (by decide)⟩

/-- C10, the claim as stated fails.  Status codes are rejected: on a fresh
recorder Respond(w, 0), Respond(w, 99) and Respond(w, 1000), all without
payload, panic inside WriteHeader; the status stays 200 and no body is
written.  And serialization failure is not the only failure kind: on a sink
whose Write fails, Respond(w, 200) without payload panics with the error of
that Write. -/
theorem respond_panics_iff_counterexample :
    ((Respond NewRecorder 0 []).2 = some (PanicValue.text "invalid WriteHeader code 0") ∧
      (Respond NewRecorder 0 []).1.Code = 200 ∧ (Respond NewRecorder 0 []).1.Body = "") ∧
    (Respond NewRecorder 99 []).2 = some (PanicValue.text "invalid WriteHeader code 99") ∧
    (Respond NewRecorder 1000 []).2 = some (PanicValue.text "invalid WriteHeader code 1000") ∧
    (Respond { NewRecorder with writeErr := some "http: request method or response status code does not allow body" } 200 []).2
      = some (PanicValue.error
          (Error.write "http: request method or response status code does not allow body")) := by
  decide

/-- C10, amended: Respond(sink, c, ps...) panics if and only if the sink's
status is not committed yet and c is below 100 or above 999, or ps is
non-empty and its first value cannot be serialized, or the sink's Write fails.
For every status code c from 100 to 999 on a sink whose Write succeeds,
Respond(sink, c) completes, a sink whose status is not committed yet takes c
unchanged as its transport status, and when c has no reason phrase the bytes
appended decode to the envelope whose data is the empty string; 299 and 999
are such codes. -/
theorem respond_panics_iff (w : ResponseRecorder) (c : Int) (ps : List GoValue) :
    ((Respond w c ps).2 ≠ none ↔
      (w.wroteHeader = false ∧ (c < 100 ∨ 999 < c)) ∨
      (∃ p qs, ps = p :: qs ∧ ¬ Serializable p) ∨ w.writeErr ≠ none) ∧
    (100 ≤ c ∧ c ≤ 999 → w.writeErr = none →
      (Respond w c []).2 = none ∧
      (w.wroteHeader = false → (Respond w c []).1.Code = c) ∧
      (statusText.lookup c = none →
        ∃ out, (Respond w c []).1.Body = w.Body ++ String.mk out ∧
          Decode out = some { Code := c, Data := JSONValue.str "" })) ∧
    statusText.lookup 299 = none ∧ statusText.lookup 999 = none := by
  refine ⟨⟨fun h => ?_, fun h => ?_⟩, fun hc he => ?_, by decide, by decide⟩
  · unfold Respond at h
    by_cases ha : Accepts w c
    · cases hw : w.writeErr with
      | some m => exact Or.inr (Or.inr (by simp))
      | none =>
        right; left
        cases ps with
        | nil =>
          rw [respond_nil, respond_cons_ok w c _ [] _ ha hw (marshal_str _)] at h
          exact absurd rfl h
        | cons p qs =>
          refine ⟨p, qs, rfl, fun hs => ?_⟩
          obtain ⟨d, hd⟩ := (serializable_iff p).1 hs
          rw [respond_cons_ok w c p qs d ha hw hd] at h
          exact absurd rfl h
    · obtain ⟨hw, hc⟩ := not_accepts w c ha
      exact Or.inl ⟨hw, by omega⟩
  · unfold Respond
    rcases h with ⟨hw, hc⟩ | ⟨p, qs, rfl, hp⟩ | he
    · rw [respond_rejected w c ps hw (by omega)]
      simp
    · intro hn
      obtain ⟨-, -, d, hd⟩ := respond_none_inv w c p qs hn
      exact hp ((serializable_iff p).2 ⟨d, hd⟩)
    · exact respond_panics_of_writeErr w c ps he
  · have ha : Accepts w c := Or.inr hc
    obtain ⟨r1, r2⟩ := respond_ok_Body w c (GoValue.str (StatusText c)) [] _ ha he (marshal_str _)
    refine ⟨r1, fun hw => respond_Code w c [] hw hc, fun hl => ?_⟩
    have hs : StatusText c = "" := by simp [StatusText, hl]
    unfold Respond
    rw [respond_nil, r2, hs]
    exact ⟨_, rfl, Decode_envelope c (GoValue.str "") _ [] _ (marshal_str _) (by rw [readBack])
      (range_int64 c hc)⟩

/-- Witness for C10 amended: `Respond(w, 299)` on a fresh recorder. -/
theorem respond_panics_iff_witness :
    (100 ≤ (299 : Int) ∧ (299 : Int) ≤ 999) ∧ NewRecorder.writeErr = none ∧
    NewRecorder.wroteHeader = false ∧ statusText.lookup 299 = none ∧
    (Respond NewRecorder 299 []).2 = none ∧ (Respond NewRecorder 299 []).1.Code = 299 ∧
    ∃ out, (Respond NewRecorder 299 []).1.Body = NewRecorder.Body ++ String.mk out ∧
      Decode out = some { Code := 299, Data := JSONValue.str "" } :=
  ⟨by decide, rfl, rfl, by decide,
    ((respond_panics_iff NewRecorder 299 []).2.1 (by decide) rfl).1,
    ((respond_panics_iff NewRecorder 299 []).2.1 (by decide) rfl).2.1 rfl,
    ((respond_panics_iff NewRecorder 299 []).2.1 (by decide) rfl).2.2 (by decide)⟩

/-- The order of the calls shows in the sink: on a fresh recorder, committing
the status before setting the header leaves a snapshot without `Content-Type`,
and writing before committing 404 leaves status 200. -/
theorem effects_order_observable :
    perform NewRecorder [Effect.WriteHeader 404, Effect.HeaderSet "Content-Type" contentType,
        Effect.Write ['x']]
      ≠ perform NewRecorder [Effect.HeaderSet "Content-Type" contentType, Effect.WriteHeader 404,
        Effect.Write ['x']] ∧
    perform NewRecorder [Effect.HeaderSet "Content-Type" contentType, Effect.Write ['x'],
        Effect.WriteHeader 404]
      ≠ perform NewRecorder [Effect.HeaderSet "Content-Type" contentType, Effect.WriteHeader 404,
        Effect.Write ['x']] := by
  decide

/-- C11: every call of Respond that completes performs exactly three effects
on the sink, in this order: it sets the Content-Type header to exactly
`application/json; charset=UTF-8`, replacing whatever the sink held for that
header and leaving the other headers alone; then it hands statusCode to
WriteHeader; then it writes the serialized envelope, as the encoder emits it,
in one Write; none of the three fails.  After the first two effects the status
is committed and the body is still as it was, so no body byte precedes the
commit; and on a sink whose status was not committed yet the transport status
is statusCode and the headers recorded at the commit already hold the
Content-Type. -/
theorem respond_three_effects (w : ResponseRecorder) (c : Int) (ps : List GoValue)
    (h : (Respond w c ps).2 = none) :
    (∃ b, (envelopeOf c ps).marshal = .ok b ∧
      perform w [Effect.HeaderSet "Content-Type" "application/json; charset=UTF-8",
        Effect.WriteHeader c, Effect.Write (b ++ ['\n'])] = ((Respond w c ps).1, none) ∧
      (Respond w c ps).1.Body = w.Body ++ String.mk (b ++ ['\n'])) ∧
    ((perform w [Effect.HeaderSet "Content-Type" "application/json; charset=UTF-8"]).1.HeaderMap.lookup
        "Content-Type" = some ["application/json; charset=UTF-8"] ∧
      (∀ k : String, k ≠ "Content-Type" →
        (perform w [Effect.HeaderSet "Content-Type" "application/json; charset=UTF-8"]).1.HeaderMap.lookup k
          = w.HeaderMap.lookup k) ∧
      (Respond w c ps).1.HeaderMap.lookup "Content-Type"
        = some ["application/json; charset=UTF-8"]) ∧
    ((perform w [Effect.HeaderSet "Content-Type" "application/json; charset=UTF-8",
        Effect.WriteHeader c]).2 = none ∧
      (perform w [Effect.HeaderSet "Content-Type" "application/json; charset=UTF-8",
        Effect.WriteHeader c]).1.wroteHeader = true ∧
      (perform w [Effect.HeaderSet "Content-Type" "application/json; charset=UTF-8",
        Effect.WriteHeader c]).1.Body = w.Body) ∧
    (w.wroteHeader = false →
      (Respond w c ps).1.Code = c ∧
      (Respond w c ps).1.snapHeader.lookup "Content-Type"
        = some ["application/json; charset=UTF-8"] ∧
      (Respond w c ps).1.snapHeader = (Respond w c ps).1.HeaderMap) := by
  obtain ⟨ha, he, b, hb, hp, hr⟩ := respond_eq_perform w c ps h
  have hr1 : (Respond w c ps).1 = { ((w.HeaderSet "Content-Type" contentType).WriteHeader c).1 with
      Body := w.Body ++ String.mk (b ++ ['\n']) } := hr
  have h1 := WriteHeader_accepts w c ha
  have hq : perform w [Effect.HeaderSet "Content-Type" contentType, Effect.WriteHeader c]
      = (((w.HeaderSet "Content-Type" contentType).WriteHeader c).1, none) := by
    simp only [perform, Effect.apply]
    rcases hx : (w.HeaderSet "Content-Type" contentType).WriteHeader c with ⟨w1, o⟩
    rw [hx] at h1
    simp only at h1
    subst h1
    rfl
  have hrange : w.wroteHeader = false → 100 ≤ c ∧ c ≤ 999 := by
    intro hw
    rcases ha with h | h
    · rw [hw] at h; cases h
    · exact h
  refine ⟨⟨b, hb, hp, by rw [hr1]⟩, ⟨?_, ?_, ?_⟩, ⟨?_, ?_, ?_⟩, fun hw => ⟨?_, ?_, ?_⟩⟩
  · exact Header_Set_lookup w.HeaderMap _ _
  · intro k hk
    exact Header_Set_lookup_ne w.HeaderMap _ _ k hk
  · rw [hr1]
    show ((w.HeaderSet "Content-Type" contentType).WriteHeader c).1.HeaderMap.lookup _ = _
    rw [committed_HeaderMap]
    exact Header_Set_lookup w.HeaderMap _ _
  · exact congrArg Prod.snd hq
  · exact (congrArg (fun o => o.1.wroteHeader) hq).trans (committed_wroteHeader w c ha)
  · exact (congrArg (fun o => o.1.Body) hq).trans (committed_Body w c)
  · rw [hr1]
    exact committed_Code w c hw (hrange hw)
  · rw [hr1]
    show ((w.HeaderSet "Content-Type" contentType).WriteHeader c).1.snapHeader.lookup _ = _
    rw [committed_snapHeader w c hw (hrange hw)]
    exact Header_Set_lookup w.HeaderMap _ _
  · rw [hr1]
    show ((w.HeaderSet "Content-Type" contentType).WriteHeader c).1.snapHeader
      = ((w.HeaderSet "Content-Type" contentType).WriteHeader c).1.HeaderMap
    rw [committed_snapHeader w c hw (hrange hw), committed_HeaderMap]

/-- Witness for C11: `Respond(w, 200, "hello")` on a recorder that already
holds `Content-Type: text/plain` and another header. -/
theorem respond_three_effects_witness :
    (Respond { NewRecorder with HeaderMap := [("Content-Type", ["text/plain"]), ("X-Id", ["7"])] }
      200 [GoValue.str "hello"]).2 = none ∧
    (Respond { NewRecorder with HeaderMap := [("Content-Type", ["text/plain"]), ("X-Id", ["7"])] }
      200 [GoValue.str "hello"]).1.HeaderMap.lookup "Content-Type"
        = some ["application/json; charset=UTF-8"] :=
  ⟨rfl, (respond_three_effects
    { NewRecorder with HeaderMap := [("Content-Type", ["text/plain"]), ("X-Id", ["7"])] }
    200 [GoValue.str "hello"] rfl).2.1.2.2⟩

end Jsonapi
